import Mathlib

/-!
# Verification of the Market-dashboard backend (`backend/main.py`)

Shallow embedding of the FastAPI backend in `backend/main.py`.  Pure logic is
translated to Lean functions; the process-wide mutable dictionaries
(`chart_cache`, `rate_limit_cache`) become explicit state passed in and out;
outbound HTTP calls become parameters describing the provider's reply; the
`random` module becomes explicit streams of draws; Python `float` values are
modelled as rationals; exceptions become `Except String`.

Modelling conventions, stated once:
* `datetime` values are records of calendar fields at minute granularity
  (the code never branches on seconds or microseconds in a way the claims
  depend on).  Python's chronological comparison of `datetime` values is
  modelled by comparing a mixed-radix key of the fields.
* `US/Eastern` is modelled as a fixed UTC-5 offset (DST is not modelled; no
  claim depends on the offset's exact value).
* `round(x, 2)` is modelled as rounding half-up to two decimals (the claims
  never depend on the tie-breaking rule of Python's banker's rounding).
* `random.gauss` / `random.uniform` / `random.randint` results are inputs.
-/

/-! ## Lexicographic order on strings (Python `str` comparison / `list.sort` key) -/

/-- Lexicographic `≤` on char lists: Python's string comparison. -/
def charListLe : List Char → List Char → Bool
  | [], _ => true
  | _ :: _, [] => false
  | a :: as, b :: bs => if a < b then true else if a = b then charListLe as bs else false

/-- Lexicographic `<` on char lists. -/
def charListLt : List Char → List Char → Bool
  | [], [] => false
  | [], _ :: _ => true
  | _ :: _, [] => false
  | a :: as, b :: bs => if a < b then true else if a = b then charListLt as bs else false

/-- Python string `<=` (code-point lexicographic). -/
def strLeB (s t : String) : Bool := charListLe s.toList t.toList

/-- Python string `<` (code-point lexicographic). -/
def strLtB (s t : String) : Bool := charListLt s.toList t.toList

/-! ## Zero-padded decimal formatting (`strftime` field rendering) -/

/-- Two-digit zero-padded rendering (`%m`, `%d`, `%H`, `%M`, `%S`). -/
def pad2 (n : ℕ) : List Char := [Nat.digitChar (n / 10), Nat.digitChar (n % 10)]

/-- Four-digit zero-padded rendering (`%Y`, for years below 10000). -/
def pad4 (n : ℕ) : List Char := pad2 (n / 100) ++ pad2 (n % 100)

/-! ## Datetime model (Python `datetime` at minute granularity) -/

/-- A Python `datetime` value, at minute granularity. -/
structure DT where
  year : ℕ
  month : ℕ
  day : ℕ
  hour : ℕ
  minute : ℕ
  deriving DecidableEq, Repr

/-- Calendar well-formedness (the invariant real `datetime` values satisfy;
`day ≤ 31` rather than the month-specific bound is all the proofs need). -/
def DTWF (t : DT) : Prop :=
  1 ≤ t.month ∧ t.month ≤ 12 ∧ 1 ≤ t.day ∧ t.day ≤ 31 ∧ t.hour < 24 ∧ t.minute < 60

instance (t : DT) : Decidable (DTWF t) := by unfold DTWF; infer_instance

/-- Gregorian leap-year test. -/
def isLeap (y : ℕ) : Bool := (y % 4 = 0 && y % 100 ≠ 0) || y % 400 = 0

/-- Number of days in a month. -/
def monthLen (y m : ℕ) : ℕ :=
  if m = 2 then (if isLeap y then 29 else 28)
  else if m = 4 ∨ m = 6 ∨ m = 9 ∨ m = 11 then 30 else 31

/-- Mixed-radix key: chronological comparison of `datetime` values is
comparison of this key (for well-formed values); Python's `datetime`
comparison is chronological. -/
def dtKey (t : DT) : ℕ :=
  (((t.year * 13 + t.month) * 32 + t.day) * 24 + t.hour) * 60 + t.minute

/-- Date-only part of the key. -/
def dateKey (t : DT) : ℕ := (t.year * 13 + t.month) * 32 + t.day

/-- Python `datetime` `<=` comparison. -/
def dtLeB (a b : DT) : Bool := dtKey a ≤ dtKey b

/-- Python `datetime` `<` comparison. -/
def dtLtB (a b : DT) : Bool := dtKey a < dtKey b

/-- `t + timedelta(days=1)`. -/
def addDay (t : DT) : DT :=
  if t.day < monthLen t.year t.month then { t with day := t.day + 1 }
  else if t.month < 12 then { t with month := t.month + 1, day := 1 }
  else { t with year := t.year + 1, month := 1, day := 1 }

/-- `t + timedelta(days=n)`. -/
def addDays (n : ℕ) (t : DT) : DT := addDay^[n] t

/-- `t - timedelta(days=1)`. -/
def subDay (t : DT) : DT :=
  if 1 < t.day then { t with day := t.day - 1 }
  else if 1 < t.month then { t with month := t.month - 1, day := monthLen t.year (t.month - 1) }
  else { t with year := t.year - 1, month := 12, day := 31 }

/-- `t - timedelta(days=n)`. -/
def subDays (n : ℕ) (t : DT) : DT := subDay^[n] t

/-- `t + timedelta(minutes=1)`. -/
def addMinute (t : DT) : DT :=
  if t.minute + 1 < 60 then { t with minute := t.minute + 1 }
  else if t.hour + 1 < 24 then { t with hour := t.hour + 1, minute := 0 }
  else { addDay t with hour := 0, minute := 0 }

/-- `t + timedelta(minutes=n)`. -/
def addMinutes (n : ℕ) (t : DT) : DT := addMinute^[n] t

/-- `t.replace(hour=h, minute=mi, second=0, microsecond=0)`. -/
def withTime (t : DT) (h mi : ℕ) : DT := { t with hour := h, minute := mi }

/-- Civil-calendar day count (Hinnant's `days_from_civil`, natural-number
version; exact for year ≥ 1, used only computationally). -/
def daysFromCivil (y m d : ℕ) : ℕ :=
  let y' := if m ≤ 2 then y - 1 else y
  let era := y' / 400
  let yoe := y' % 400
  let mp := if 3 ≤ m then m - 3 else m + 9
  let doy := (153 * mp + 2) / 5 + (d - 1)
  let doe := yoe * 365 + yoe / 4 - yoe / 100 + doy
  era * 146097 + doe

/-- Inverse of `daysFromCivil` (Hinnant's `civil_from_days`). -/
def civilFromDays (z : ℕ) : ℕ × ℕ × ℕ :=
  let era := z / 146097
  let doe := z % 146097
  let yoe := (doe - doe / 1460 + doe / 36524 - doe / 146096) / 365
  let y := yoe + era * 400
  let doy := doe - (365 * yoe + yoe / 4 - yoe / 100)
  let mp := (5 * doy + 2) / 153
  let d := doy - (153 * mp + 2) / 5 + 1
  let m := if mp < 10 then mp + 3 else mp - 9
  (if m ≤ 2 then y + 1 else y, m, d)

/-- Absolute minute count of a datetime (for `timedelta` arithmetic). -/
def toAbsMinutes (t : DT) : ℕ := daysFromCivil t.year t.month t.day * 1440 + t.hour * 60 + t.minute

/-- Datetime from an absolute minute count. -/
def ofAbsMinutes (n : ℕ) : DT :=
  let c := civilFromDays (n / 1440)
  ⟨c.1, c.2.1, c.2.2, (n % 1440) / 60, n % 60⟩

/-- `t - timedelta(minutes=k)` (used for fixed-offset timezone shifts and
the mock timestamps counted back from `now`). -/
def dtSubMinutes (t : DT) (k : ℕ) : DT := ofAbsMinutes (toAbsMinutes t - k)

/-- `t - timedelta(hours=k)`. -/
def dtSubHours (t : DT) (k : ℕ) : DT := dtSubMinutes t (60 * k)

/-- Python's `datetime.weekday()` (Monday = 0 … Sunday = 6).
Day 0 of `daysFromCivil` (0000-03-01) was a Wednesday. -/
def weekdayPy (t : DT) : ℕ := (daysFromCivil t.year t.month t.day + 2) % 7

/-- `minutes(b) - minutes(a)` as an integer: the `timedelta` between two
datetimes, in minutes. -/
def minutesBetween (a b : DT) : ℤ := (toAbsMinutes b : ℤ) - (toAbsMinutes a : ℤ)

/-! ### Formatting (`strftime`) -/

/-- `strftime("%Y-%m-%d")`, as a char list. -/
def fmtDateL (t : DT) : List Char := pad4 t.year ++ '-' :: (pad2 t.month ++ '-' :: pad2 t.day)

/-- `strftime("%Y-%m-%d %H:%M:%S")`, as a char list (seconds always `00`). -/
def fmtDateTimeL (t : DT) : List Char :=
  fmtDateL t ++ ' ' :: (pad2 t.hour ++ ':' :: (pad2 t.minute ++ [':', '0', '0']))

/-- `strftime("%Y-%m-%d")`. -/
def fmtDate (t : DT) : String := String.mk (fmtDateL t)

/-- `strftime("%Y-%m-%d %H:%M:%S")`. -/
def fmtDateTime (t : DT) : String := String.mk (fmtDateTimeL t)

/-- `strftime("%Y-%m-%dT%H:%M:%SZ")`. -/
def fmtIsoZ (t : DT) : String :=
  String.mk (fmtDateL t ++ 'T' :: (pad2 t.hour ++ ':' :: (pad2 t.minute ++ [':', '0', '0', 'Z'])))

/-- Python `datetime.isoformat()` at minute granularity. -/
def isoformat (t : DT) : String :=
  String.mk (fmtDateL t ++ 'T' :: (pad2 t.hour ++ ':' :: (pad2 t.minute ++ [':', '0', '0'])))

/-! ### Parsing (`strptime`) -/

/-- Decimal digit value of a char, if it is a digit. -/
def digitVal (c : Char) : Option ℕ :=
  if '0' ≤ c ∧ c ≤ '9' then some (c.toNat - 48) else none

/-- Two fixed digits. -/
def parse2c (a b : Char) : Option ℕ := do
  let x ← digitVal a
  let y ← digitVal b
  pure (x * 10 + y)

/-- `datetime.strptime(s, "%Y-%m-%d")` (modelled on zero-padded input;
out-of-range fields fail as in Python). -/
def strptimeDate (s : String) : Option DT :=
  match s.toList with
  | [y1, y2, y3, y4, '-', m1, m2, '-', d1, d2] => do
    let yh ← parse2c y1 y2
    let yl ← parse2c y3 y4
    let m ← parse2c m1 m2
    let d ← parse2c d1 d2
    if 1 ≤ m ∧ m ≤ 12 ∧ 1 ≤ d ∧ d ≤ 31 then some ⟨yh * 100 + yl, m, d, 0, 0⟩ else none
  | _ => none

/-- `datetime.strptime(s, "%Y-%m-%d %H:%M:%S")` (minute granularity: the
seconds field must be present and is checked, but is not retained). -/
def strptimeDateTime (s : String) : Option DT :=
  match s.toList with
  | [y1, y2, y3, y4, '-', m1, m2, '-', d1, d2, ' ', h1, h2, ':', n1, n2, ':', s1, s2] => do
    let yh ← parse2c y1 y2
    let yl ← parse2c y3 y4
    let m ← parse2c m1 m2
    let d ← parse2c d1 d2
    let h ← parse2c h1 h2
    let mi ← parse2c n1 n2
    let sec ← parse2c s1 s2
    if 1 ≤ m ∧ m ≤ 12 ∧ 1 ≤ d ∧ d ≤ 31 ∧ h < 24 ∧ mi < 60 ∧ sec < 60 then
      some ⟨yh * 100 + yl, m, d, h, mi⟩
    else none
  | _ => none

/-- Insert into a sorted list (used to model Python's stable `list.sort`;
the claims depend only on sortedness of the result). -/
def insertSorted (le : α → α → Bool) (x : α) : List α → List α
  | [] => [x]
  | y :: ys => if le x y then x :: y :: ys else y :: insertSorted le x ys

/-- Python's `list.sort(key=...)`, modelled as insertion sort. -/
def pySort (le : α → α → Bool) : List α → List α
  | [] => []
  | x :: xs => insertSorted le x (pySort le xs)

/-- Python `max(...)` over a list of rationals (callers guard nonemptiness;
`0` is an arbitrary value for the empty list, never reached on guarded paths). -/
def pyMax : List ℚ → ℚ
  | [] => 0
  | x :: xs => xs.foldl max x

/-- Python `min(...)` over a list of rationals. -/
def pyMin : List ℚ → ℚ
  | [] => 0
  | x :: xs => xs.foldl min x

/-! ## Backend data model -/

/-- Python `round(x, 2)` (half-up; the tie-breaking rule is irrelevant to
every claim). -/
def round2 (x : ℚ) : ℚ := (⌊x * 100 + 1 / 2⌋ : ℚ) / 100

/-- One point of a historical series (`open`/`high`/`low`/`close`/`volume`
dict entry; `open` is a Lean keyword, hence `open_price`). -/
structure HistoryPoint where
  date : String
  open_price : ℚ
  high : ℚ
  low : ℚ
  close : ℚ
  volume : ℤ
  deriving DecidableEq, Repr

/-- Result of `fetch_alpha_vantage_history` / `generate_mock_historical_data`.
The real-fetch dict carries no `is_mock_data` key and the endpoint reads it
with `.get("is_mock_data", False)`; that is modelled by storing `false`. -/
structure HistoryResult where
  data : List HistoryPoint
  period_high : ℚ
  period_low : ℚ
  is_mock_data : Bool
  deriving DecidableEq, Repr

/-- The merged quote+overview dict built by `fetch_alpha_vantage_stock` and
the mock dict built by `get_mock_stock_data` (key-set differences between the
two shapes — `historical_data`, `is_mock_data` — are collapsed into one
structure; no claim inspects the differing keys). -/
structure StockData where
  symbol : String
  company_name : String
  current_price : ℚ
  change : ℚ
  change_percent : ℚ
  volume : ℤ
  week52_high : ℚ
  week52_low : ℚ
  market_cap : Option ℤ
  pe_ratio : Option ℚ
  peg_ratio : Option ℚ
  book_value : Option ℚ
  dividend_per_share : Option ℚ
  dividend_yield : Option ℚ
  eps : Option ℚ
  beta : Option ℚ
  sector : Option String
  industry : Option String
  description : Option String
  is_mock_data : Bool
  deriving DecidableEq, Repr

/-- The per-symbol entries of the `mock_data` table in `get_mock_stock_data`. -/
structure MockBase where
  company_name : String
  base_price : ℚ
  sector : String
  industry : String
  market_cap : ℤ
  pe_ratio : ℚ
  description : String

/-- The `mock_data` table of `get_mock_stock_data` with its `.get(symbol, generic)`
default. -/
def mock_base_data (symbol : String) : MockBase :=
  if symbol = "AAPL" then
    ⟨"Apple Inc.", 185, "Technology", "Consumer Electronics", 2800000000000, 28.5,
      "Apple Inc. designs, manufactures, and markets smartphones, personal computers, tablets, wearables, and accessories worldwide."⟩
  else if symbol = "TSLA" then
    ⟨"Tesla, Inc.", 248, "Consumer Cyclical", "Auto Manufacturers", 780000000000, 65.2,
      "Tesla, Inc. designs, develops, manufactures, leases, and sells electric vehicles, and energy generation and storage systems."⟩
  else if symbol = "NVDA" then
    ⟨"NVIDIA Corporation", 875, "Technology", "Semiconductors", 2150000000000, 45.8,
      "NVIDIA Corporation operates as a computing company in the United States and internationally."⟩
  else if symbol = "MSFT" then
    ⟨"Microsoft Corporation", 420, "Technology", "Software—Infrastructure", 3100000000000, 32.1,
      "Microsoft Corporation develops, licenses, and supports software, services, devices, and solutions worldwide."⟩
  else if symbol = "GOOGL" then
    ⟨"Alphabet Inc.", 165, "Communication Services", "Internet Content & Information", 2050000000000, 25.4,
      "Alphabet Inc. provides various products and services in the United States, international markets, and China."⟩
  else if symbol = "AMZN" then
    ⟨"Amazon.com, Inc.", 145, "Consumer Cyclical", "Internet Retail", 1500000000000, 48.7,
      "Amazon.com, Inc. engages in the retail sale of consumer products and subscriptions in North America and internationally."⟩
  else if symbol = "META" then
    ⟨"Meta Platforms, Inc.", 485, "Communication Services", "Internet Content & Information", 1200000000000, 26.8,
      "Meta Platforms, Inc. develops products that enable people to connect and share with friends and family through mobile devices, personal computers, virtual reality headsets, and wearables worldwide."⟩
  else if symbol = "NFLX" then
    ⟨"Netflix, Inc.", 485, "Communication Services", "Entertainment", 210000000000, 42.3,
      "Netflix, Inc. provides entertainment services. It offers TV series, documentaries, feature films, and mobile games across a wide variety of genres and languages."⟩
  else
    ⟨symbol ++ " Inc.", 120, "Technology", "Software", 50000000000, 25,
      symbol ++ " is a publicly traded company."⟩

/-- The symbols given fake dividends in `get_mock_stock_data`. -/
def dividend_symbols : List String :=
  ["AAPL", "MSFT", "JNJ", "KO", "PG", "NVDA", "GOOGL", "META", "AMZN"]

/-- The random draws consumed by one call of `get_mock_stock_data`. -/
structure StockRand where
  price_variation : ℚ
  volume : ℤ
  dividend_yield : ℚ
  beta : ℚ
  peg_ratio : ℚ
  book_factor : ℚ

/-- `get_mock_stock_data(symbol)`. -/
def get_mock_stock_data (symbol : String) (r : StockRand) : StockData :=
  let base := mock_base_data symbol
  let current_price := base.base_price * (1 + r.price_variation)
  let change := current_price - base.base_price
  let change_percent := change / base.base_price * 100
  let dy : ℚ := if symbol ∈ dividend_symbols then round2 r.dividend_yield else 0
  let dps : ℚ := if symbol ∈ dividend_symbols then round2 (current_price * dy / 100 / 4) else 0
  { symbol := symbol
    company_name := base.company_name
    current_price := round2 current_price
    change := round2 change
    change_percent := round2 change_percent
    volume := r.volume
    market_cap := some base.market_cap
    pe_ratio := some base.pe_ratio
    sector := some base.sector
    industry := some base.industry
    description := some base.description
    week52_high := round2 (current_price * 1.25)
    week52_low := round2 (current_price * 0.75)
    eps := some (round2 (current_price / base.pe_ratio))
    beta := some (round2 r.beta)
    dividend_yield := some dy
    dividend_per_share := some dps
    peg_ratio := some (round2 r.peg_ratio)
    book_value := some (round2 (current_price * r.book_factor))
    is_mock_data := true }

/-- The random draws consumed by one loop iteration of
`generate_mock_historical_data`. -/
structure StepRand where
  change : ℚ
  u_high : ℚ
  u_low : ℚ
  u_open : ℚ
  volume_base : ℤ

/-- The `while current <= end` interval loop of the `1d` branch of
`generate_mock_historical_data`, with explicit fuel (the fuel is far larger
than the number of iterations ever reachable, so the guard always stops the
loop first). -/
def intervalsWhile : ℕ → DT → DT → List DT
  | 0, _, _ => []
  | fuel + 1, cur, bound =>
    if dtLeB cur bound then cur :: intervalsWhile fuel (addMinutes 30 cur) bound else []

/-- Fuel for `intervalsWhile` (a 1d interval list has at most 62 entries). -/
def mockIntervalFuel : ℕ := 100000

/-- The `intervals` list of `generate_mock_historical_data`. -/
def mockIntervals (period : String) (now : DT) : List DT :=
  if period = "1d" then
    intervalsWhile mockIntervalFuel (withTime (subDays 1 now) 9 30) (withTime now 16 0)
  else if period = "1w" then
    (List.range 8).map (fun i => addDays i (subDays 7 now))
  else if period = "3m" then
    (List.range 31).map (fun i => addDays (i * 3) (subDays 90 now))
  else
    (List.range 53).map (fun i => addDays (i * 7) (subDays 365 now))

/-- The `date` label a mock interval is rendered with. -/
def mockDateLabel (period : String) (d : DT) : String :=
  if period = "1d" then fmtDateTime d else fmtDate d

/-- The price-walk loop body of `generate_mock_historical_data`: one
`HistoryPoint` per interval, threading `current_price`. -/
def mockWalk (period : String) (rand : ℕ → StepRand) : ℕ → ℚ → List DT → List HistoryPoint
  | _, _, [] => []
  | i, price, d :: ds =>
    let r := rand i
    let price' := price * (1 + r.change)
    let daily_high := price' * (1 + r.u_high)
    let daily_low := price' * (1 - r.u_low)
    let open_p := price' * (1 + r.u_open)
    let volume : ℤ := ⌊(r.volume_base : ℚ) * (1 + |r.change| * 10)⌋
    { date := mockDateLabel period d
      open_price := round2 open_p
      high := round2 daily_high
      low := round2 daily_low
      close := round2 price'
      volume := volume } :: mockWalk period rand (i + 1) price' ds

/-- `generate_mock_historical_data(symbol, period)`.  `now` is `datetime.now()`,
`sRand` the draws of the inner `get_mock_stock_data` call, `rand` the
per-iteration draws. -/
def generate_mock_historical_data (symbol : String) (period : String) (now : DT)
    (sRand : StockRand) (rand : ℕ → StepRand) : HistoryResult :=
  let base := get_mock_stock_data symbol sRand
  let data := mockWalk period rand 0 (base.current_price * (95 / 100)) (mockIntervals period now)
  { data := data
    period_high := pyMax (data.map (·.high))
    period_low := pyMin (data.map (·.low))
    is_mock_data := true }

/-! ## Substring matching, error signatures, validator, rate limiter -/

/-- Needle-at-head test on char lists. -/
def startsWithCL : List Char → List Char → Bool
  | [], _ => true
  | _ :: _, [] => false
  | a :: as, b :: bs => a = b && startsWithCL as bs

/-- Needle-anywhere test on char lists. -/
def containsCL (needle : List Char) : List Char → Bool
  | [] => needle.isEmpty
  | c :: cs => startsWithCL needle (c :: cs) || containsCL needle cs

/-- Python `needle in hay` on strings. -/
def strContains (hay needle : String) : Bool := containsCL needle.toList hay.toList

/-- Python `str.lower()` (ASCII; provider error messages are ASCII). -/
def strLower (s : String) : String := String.mk (s.toList.map Char.toLower)

/-- Python `str.upper()` (ASCII). -/
def strUpper (s : String) : String := String.mk (s.toList.map Char.toUpper)

/-- The quota/rate-limit signature test shared by `fetch_alpha_vantage_stock`
and `fetch_alpha_vantage_history`:
`any(term in error_msg for term in ['rate limit', 'api limit', 'frequency', 'api call'])`
over the lowercased exception message. -/
def av_rate_limit_signature (msg : String) : Bool :=
  let m := strLower msg
  strContains m "rate limit" || strContains m "api limit" ||
    strContains m "frequency" || strContains m "api call"

/-- The news-client signature test:
`"rate limit" in str(e).lower() or "rateLimited" in str(e)`. -/
def news_rate_limit_signature (msg : String) : Bool :=
  strContains (strLower msg) "rate limit" || strContains msg "rateLimited"

/-- `validate_symbol(symbol)`: `ValueError` is modelled as `Except.error`
carrying `str(ve)`. -/
def validate_symbol (symbol : String) : Except String String :=
  if symbol.length = 0 ∨ 10 < symbol.length then .error "Invalid symbol length"
  else
    let clean_symbol := String.mk ((strUpper symbol).toList.filter Char.isAlphanum)
    if clean_symbol.length = 0 then .error "Invalid symbol format"
    else .ok clean_symbol

/-- `rate_limit_cache`: per-IP list of request timestamps (`time.time()`
values, modelled as rationals). -/
abbrev RLState := List (String × List ℚ)

/-- Dictionary read with the `if client_ip not in rate_limit_cache: ... = []`
initialisation folded in. -/
def rlLookup (st : RLState) (ip : String) : List ℚ :=
  match st with
  | [] => []
  | (k, v) :: rest => if k = ip then v else rlLookup rest ip

/-- Dictionary write. -/
def rlUpdate (st : RLState) (ip : String) (l : List ℚ) : RLState :=
  match st with
  | [] => [(ip, l)]
  | (k, v) :: rest => if k = ip then (ip, l) :: rest else (k, v) :: rlUpdate rest ip l

/-- `check_rate_limit(client_ip, max_requests, window_minutes)`; the mutated
`rate_limit_cache` is returned alongside the boolean.  (The Python defaults
`max_requests=60, window_minutes=1` are always overridden at the call site.) -/
def check_rate_limit (st : RLState) (client_ip : String) (current_time : ℚ)
    (max_requests : ℕ) (window_minutes : ℚ) : Bool × RLState :=
  let window_size := window_minutes * 60
  let pruned := (rlLookup st client_ip).filter (fun req_time => current_time - req_time < window_size)
  if max_requests ≤ pruned.length then (false, rlUpdate st client_ip pruned)
  else (true, rlUpdate st client_ip (pruned ++ [current_time]))

/-- A sequence of `check_rate_limit` calls from one IP at the given times,
returning the admission decisions in order. -/
def runChecks (ip : String) (maxR : ℕ) (wMin : ℚ) : List ℚ → RLState → List Bool × RLState
  | [], st => ([], st)
  | t :: ts, st =>
    let (b, st') := check_rate_limit st ip t maxR wMin
    let (bs, st'') := runChecks ip maxR wMin ts st'
    (b :: bs, st'')

/-! ## Alpha Vantage clients -/

/-- Outcome of one Alpha Vantage HTTP exchange, as inspected by the code:
either the expected top-level key is present with payload `α`, or one of the
recognized error body shapes, or the call/parse itself raised (network
failure, carrying the exception's message).  Numeric fields arrive already
parsed (a float-parse failure would surface as a non-matching generic
exception and is not modelled separately). -/
inductive AVResp (α : Type) where
  | payload (a : α)
  | errorMessage (s : String)
  | note
  | information
  | invalid
  | netFail (msg : String)

/-- The `"Global Quote"` fields consumed by `fetch_alpha_vantage_stock`
(`.get` defaults folded in: a missing `"01. symbol"` is `none`). -/
structure QuoteFields where
  symbol : Option String
  price : ℚ
  change : ℚ
  change_percent : ℚ
  volume : ℤ
  high : ℚ
  low : ℚ

/-- The dict returned by `fetch_alpha_vantage_overview` (only the keys the
stock merge consumes). -/
structure OverviewData where
  company_name : String
  description : String
  sector : String
  industry : String
  market_cap : Option ℤ
  pe_ratio : Option ℚ
  peg_ratio : Option ℚ
  book_value : Option ℚ
  dividend_per_share : Option ℚ
  dividend_yield : Option ℚ
  eps : Option ℚ
  beta : Option ℚ
  week52_high : Option ℚ
  week52_low : Option ℚ

/-- The exception message produced by the non-payload outcomes of the
`GLOBAL_QUOTE` call in `fetch_alpha_vantage_stock`. -/
def av_stock_fail_msg (symbol : String) : AVResp QuoteFields → String
  | .payload _ => ""
  | .errorMessage s => s
  | .note => "API call frequency limit reached. Please try again later."
  | .information => "Alpha Vantage API limit reached for " ++ symbol
  | .invalid => "Invalid response from Alpha Vantage"
  | .netFail m => m

/-- Python truthiness of an optional float (`if overview_data.get(k):`). -/
def truthyQ : Option ℚ → Bool
  | none => false
  | some q => q ≠ 0

/-- `fetch_alpha_vantage_stock(symbol)`.  `keyPresent` is whether
`ALPHA_VANTAGE_API_KEY` is set; `resp` the quote exchange; `overview` the
best-effort result of the inner `fetch_alpha_vantage_overview` call (`none`
when that call raised); `mockRand` feeds `get_mock_stock_data` on the
rate-limited fallback. -/
def fetch_alpha_vantage_stock (symbol : String) (keyPresent : Bool)
    (resp : AVResp QuoteFields) (overview : Option OverviewData)
    (mockRand : StockRand) : Except String StockData :=
  if !keyPresent then
    .error "Alpha Vantage API key not found in environment variables"
  else
    match resp with
    | .payload quote =>
      let base : StockData :=
        { symbol := quote.symbol.getD symbol
          company_name := match overview with
            | some o => o.company_name
            | none => symbol ++ " Inc."
          current_price := quote.price
          change := quote.change
          change_percent := quote.change_percent
          volume := quote.volume
          week52_high := quote.high
          week52_low := quote.low
          market_cap := none, pe_ratio := none, peg_ratio := none
          book_value := none, dividend_per_share := none, dividend_yield := none
          eps := none, beta := none, sector := none, industry := none
          description := none
          is_mock_data := false }
      match overview with
      | some o =>
        let d1 :=
          { base with
            market_cap := o.market_cap, pe_ratio := o.pe_ratio
            peg_ratio := o.peg_ratio, book_value := o.book_value
            dividend_per_share := o.dividend_per_share
            dividend_yield := o.dividend_yield, eps := o.eps, beta := o.beta
            sector := some o.sector, industry := some o.industry
            description := some o.description }
        let d2 := if truthyQ o.week52_high then { d1 with week52_high := o.week52_high.getD 0 } else d1
        let d3 := if truthyQ o.week52_low then { d2 with week52_low := o.week52_low.getD 0 } else d2
        .ok d3
      | none => .ok base
    | failure =>
      let error_msg := av_stock_fail_msg symbol failure
      if av_rate_limit_signature error_msg then
        .ok (get_mock_stock_data symbol mockRand)
      else
        .error ("Alpha Vantage API error for " ++ symbol ++ ": Failed to fetch stock data")

/-- One bar of a provider time series (dict iteration order of
`time_series.items()`), numeric fields already parsed. -/
structure RawBar where
  date : String
  open_price : ℚ
  high : ℚ
  low : ℚ
  close : ℚ
  volume : ℤ

/-- `chart_cache`: maps `f"{symbol}_{period}"` to `(payload, fetch time)`. -/
abbrev ChartCache := List (String × HistoryResult × DT)

def cacheLookup (c : ChartCache) (k : String) : Option (HistoryResult × DT) :=
  match c with
  | [] => none
  | (k', v) :: rest => if k' = k then some v else cacheLookup rest k

def cacheInsert (c : ChartCache) (k : String) (v : HistoryResult × DT) : ChartCache :=
  match c with
  | [] => [(k, v)]
  | (k', v') :: rest => if k' = k then (k, v) :: rest else (k', v') :: cacheInsert rest k v

/-- `pytz.UTC.localize(t).astimezone(US/Eastern)` with the fixed UTC-5 model. -/
def estOfUtc (t : DT) : DT := dtSubMinutes t 300

/-- The market-open/market-close pair computed by the `1d` branch: today's
09:30–16:00 EST window, walked back to the previous trading day on weekends
and before the open. -/
def tradingWindow (now_est : DT) : DT × DT :=
  let wd := weekdayPy now_est
  if 5 ≤ wd then
    let d := subDays (wd - 4) now_est
    (withTime d 9 30, withTime d 16 0)
  else if dtLtB now_est (withTime now_est 9 30) then
    let d := if wd = 0 then subDays 3 now_est else subDays 1 now_est
    (withTime d 9 30, withTime d 16 0)
  else (withTime now_est 9 30, withTime now_est 16 0)

/-- The exception message of the non-payload outcomes of a history exchange
(`"1D"` vs `"Daily"` phrasing per branch). -/
def av_hist_fail_msg (symbol period : String) : AVResp (List RawBar) → String
  | .payload _ => ""
  | .errorMessage s => s
  | .note => "API call frequency limit reached. Please try again later."
  | .information => "Alpha Vantage API limit reached for " ++ symbol
  | .invalid =>
    if period = "1d" then "Invalid 1D response from Alpha Vantage for " ++ symbol
    else "Invalid Daily response from Alpha Vantage for " ++ symbol
  | .netFail m => m

deriving instance DecidableEq for Except

/-- Result of a `fetch_alpha_vantage_history` call: the returned value or
raised exception, the cache afterwards, and whether a provider HTTP call was
made. -/
structure FetchHistOut where
  result : Except String HistoryResult
  cache : ChartCache
  networkCalled : Bool
  deriving DecidableEq

/-- The `except` handler of `fetch_alpha_vantage_history`. -/
def historyExceptHandler (symbol period : String) (now : DT) (cache : ChartCache)
    (sRand : StockRand) (rand : ℕ → StepRand) (msg : String) : FetchHistOut :=
  if av_rate_limit_signature msg then
    { result := .ok (generate_mock_historical_data symbol period now sRand rand)
      cache := cache, networkCalled := true }
  else
    { result := .error ("Alpha Vantage history API error for " ++ symbol ++
        ": Failed to fetch historical data")
      cache := cache, networkCalled := true }

/-- Tail of the success path shared by both branches: period high/low over the
filtered list (`0`/`0` when it is empty), then cache the result. -/
def finishHistory (cache : ChartCache) (now : DT) (cache_key : String)
    (filtered : List HistoryPoint) : FetchHistOut :=
  let result : HistoryResult :=
    { data := filtered
      period_high := if filtered.isEmpty then 0 else pyMax (filtered.map (·.high))
      period_low := if filtered.isEmpty then 0 else pyMin (filtered.map (·.low))
      is_mock_data := false }
  { result := .ok result
    cache := cacheInsert cache cache_key (result, now)
    networkCalled := true }

/-- The strptime `ValueError` message (as matched against the rate-limit
signatures when a date string fails to parse). -/
def strptimeErrMsg (s fmt : String) : String :=
  "time data '" ++ s ++ "' does not match format '" ++ fmt ++ "'"

/-- The network part of `fetch_alpha_vantage_history` (after the key check
and a cache miss). -/
def historyNetwork (symbol period : String) (cache : ChartCache) (now nowEst : DT)
    (resp : AVResp (List RawBar)) (sRand : StockRand) (rand : ℕ → StepRand)
    (cache_key : String) : FetchHistOut :=
  match resp with
  | .payload bars =>
    let chart : List HistoryPoint :=
      bars.map (fun b => ⟨b.date, b.open_price, b.high, b.low, b.close, b.volume⟩)
    let sorted := pySort (fun a b => strLeB a.date b.date) chart
    if period = "1d" then
      match sorted.find? (fun p => (strptimeDateTime p.date).isNone) with
      | some p =>
        historyExceptHandler symbol period now cache sRand rand
          (strptimeErrMsg p.date "%Y-%m-%d %H:%M:%S")
      | none =>
        let w := tradingWindow nowEst
        let filtered := sorted.filter (fun p =>
          match strptimeDateTime p.date with
          | some d => dtLeB w.1 (estOfUtc d) && dtLeB (estOfUtc d) w.2
          | none => false)
        finishHistory cache now cache_key filtered
    else
      match sorted.find? (fun p => (strptimeDate p.date).isNone) with
      | some p =>
        historyExceptHandler symbol period now cache sRand rand
          (strptimeErrMsg p.date "%Y-%m-%d")
      | none =>
        let start_date :=
          if period = "1w" then subDays 7 now
          else if period = "3m" then subDays 90 now
          else subDays 365 now
        let filtered := sorted.filter (fun p =>
          match strptimeDate p.date with
          | some d => dtLeB start_date d
          | none => false)
        finishHistory cache now cache_key filtered
  | failure =>
    historyExceptHandler symbol period now cache sRand rand
      (av_hist_fail_msg symbol period failure)

/-- `fetch_alpha_vantage_history(symbol, period)`.  The missing-key raise
happens before the `try`, so it is never signature-matched; the cache is
consulted after the key check and before any network call. -/
def fetch_alpha_vantage_history (symbol period : String) (keyPresent : Bool)
    (cache : ChartCache) (now nowEst : DT) (resp : AVResp (List RawBar))
    (sRand : StockRand) (rand : ℕ → StepRand) : FetchHistOut :=
  if !keyPresent then
    { result := .error "Alpha Vantage API key not found in environment variables"
      cache := cache, networkCalled := false }
  else
    let cache_key := symbol ++ "_" ++ period
    match cacheLookup cache cache_key with
    | some (cached_data, cached_time) =>
      if minutesBetween cached_time now < 60 then
        { result := .ok cached_data, cache := cache, networkCalled := false }
      else
        historyNetwork symbol period cache now nowEst resp sRand rand cache_key
    | none => historyNetwork symbol period cache now nowEst resp sRand rand cache_key

/-! ## News clients and completion-based analysis -/

/-- One news article as shaped by the backend. -/
structure NewsArticle where
  title : String
  description : String
  url : String
  published_at : String
  source : String
  content : String
  deriving DecidableEq, Repr

/-- One market-wide article (adds extracted ticker mentions). -/
structure MarketArticle where
  title : String
  description : String
  url : String
  published_at : String
  source : String
  content : String
  mentions : List String
  deriving DecidableEq, Repr

/-- The three-article mock set of `fetch_news_for_symbol` (used verbatim both
for a missing `NEWS_API_KEY` and for the rate-limited fallback). -/
def mock_symbol_news (symbol : String) : List NewsArticle :=
  [ { title := symbol ++ " Reports Strong Quarterly Earnings"
      description := symbol ++ " exceeded analyst expectations with robust revenue growth and positive outlook for next quarter."
      url := "https://example.com/mock-news-1"
      published_at := "2024-01-20T10:30:00Z"
      source := "Financial Times"
      content := "Company " ++ symbol ++ " demonstrated strong performance in recent quarterly results..." },
    { title := "Analysts Upgrade " ++ symbol ++ " Price Target"
      description := "Major investment banks raise price targets for " ++ symbol ++ " citing strong fundamentals and market position."
      url := "https://example.com/mock-news-2"
      published_at := "2024-01-19T14:15:00Z"
      source := "Reuters"
      content := "Several analysts have revised their outlook on " ++ symbol ++ " following recent developments..." },
    { title := symbol ++ " Announces Strategic Partnership"
      description := symbol ++ " enters new strategic alliance expected to drive future growth and market expansion."
      url := "https://example.com/mock-news-3"
      published_at := "2024-01-18T09:45:00Z"
      source := "Bloomberg"
      content := "The partnership between " ++ symbol ++ " and industry leaders signals strong growth potential..." } ]

/-- `fetch_news_for_symbol(symbol)`.  `tryOutcome` abstracts the search /
filter / de-duplication pipeline of the `try` block: its returned article
list, or the message of the exception it raised. -/
def fetch_news_for_symbol (symbol : String) (keyPresent : Bool)
    (tryOutcome : Except String (List NewsArticle)) : Except String (List NewsArticle) :=
  if !keyPresent then .ok (mock_symbol_news symbol)
  else
    match tryOutcome with
    | .ok arts => .ok arts
    | .error msg =>
      if news_rate_limit_signature msg then .ok (mock_symbol_news symbol)
      else .error ("News API error: " ++ msg)

/-- The five-article development mock set returned by `fetch_market_news`
when `NEWS_API_KEY` is absent. -/
def mock_market_news_dev : List MarketArticle :=
  [ { title := "Tesla Reports Record Q4 Earnings, Stock Jumps 8% in After-Hours Trading"
      description := "Electric vehicle maker Tesla exceeded analyst expectations with strong quarterly results, boosting investor confidence."
      url := "https://example.com/tesla-earnings"
      published_at := "2024-01-25T16:30:00Z"
      source := "Reuters"
      content := "Tesla Inc. reported record quarterly earnings..."
      mentions := ["TSLA"] },
    { title := "Fed Signals Potential Rate Cuts as Inflation Cools"
      description := "Federal Reserve officials hint at possible interest rate reductions following lower-than-expected inflation data."
      url := "https://example.com/fed-rates"
      published_at := "2024-01-25T14:20:00Z"
      source := "Wall Street Journal"
      content := "The Federal Reserve is considering rate cuts..."
      mentions := ["SPY", "QQQ", "DJI"] },
    { title := "Microsoft and OpenAI Partnership Deepens with $10B Investment"
      description := "Microsoft announces expanded partnership with OpenAI, investing billions more in AI development and integration."
      url := "https://example.com/msft-openai"
      published_at := "2024-01-25T11:45:00Z"
      source := "Bloomberg"
      content := "Microsoft Corp. is expanding its relationship with OpenAI..."
      mentions := ["MSFT", "GOOGL", "NVDA"] },
    { title := "Amazon Web Services Launches New AI Cloud Services"
      description := "Amazon's cloud division unveils suite of AI tools to compete with Microsoft and Google in enterprise AI market."
      url := "https://example.com/aws-ai"
      published_at := "2024-01-25T09:15:00Z"
      source := "CNBC"
      content := "Amazon Web Services announced new AI capabilities..."
      mentions := ["AMZN", "MSFT", "GOOGL"] },
    { title := "Apple Earnings Preview: iPhone Sales in Focus Amid China Concerns"
      description := "Analysts expect Apple's upcoming earnings to reveal impact of China market challenges on iPhone revenue."
      url := "https://example.com/aapl-earnings-preview"
      published_at := "2024-01-25T08:00:00Z"
      source := "MarketWatch"
      content := "Apple Inc. is set to report quarterly earnings next week..."
      mentions := ["AAPL"] } ]

/-- The ten-article mock set returned by the `except` handler of
`fetch_market_news` (timestamps counted back from `now`). -/
def mock_market_news_rate_limited (now : DT) : List MarketArticle :=
  [ { title := "Tech Stocks Rally as AI Spending Drives Growth"
      description := "Major technology companies see stock prices surge amid increased investment in artificial intelligence infrastructure and services."
      url := "https://example.com/tech-rally"
      published_at := fmtIsoZ (dtSubHours now 2)
      source := "Reuters"
      content := "Technology stocks continued their upward momentum as companies report strong AI-related revenue growth..."
      mentions := ["NVDA", "MSFT", "GOOGL", "META"] },
    { title := "Federal Reserve Maintains Interest Rates Amid Economic Uncertainty"
      description := "The Federal Reserve keeps interest rates steady while monitoring inflation trends and employment data."
      url := "https://example.com/fed-rates"
      published_at := fmtIsoZ (dtSubHours now 4)
      source := "Wall Street Journal"
      content := "The Federal Reserve announced its decision to maintain current interest rates..."
      mentions := ["SPY", "QQQ", "DJI"] },
    { title := "Electric Vehicle Sales Surge Despite Market Headwinds"
      description := "EV manufacturers report strong quarterly deliveries as consumer adoption accelerates globally."
      url := "https://example.com/ev-sales"
      published_at := fmtIsoZ (dtSubHours now 6)
      source := "Bloomberg"
      content := "Electric vehicle sales continue to outpace traditional auto sales..."
      mentions := ["TSLA", "RIVN", "LCID", "NIO"] },
    { title := "Energy Sector Gains on Rising Oil Prices"
      description := "Oil and gas companies see stock gains as crude prices climb amid supply concerns and geopolitical tensions."
      url := "https://example.com/energy-gains"
      published_at := fmtIsoZ (dtSubHours now 8)
      source := "CNBC"
      content := "Energy stocks surged as oil prices reached new monthly highs..."
      mentions := ["XOM", "CVX", "COP", "EOG"] },
    { title := "Healthcare Stocks Mixed on Drug Approval News"
      description := "Pharmaceutical companies show varied performance following FDA approvals and clinical trial results."
      url := "https://example.com/healthcare-mixed"
      published_at := fmtIsoZ (dtSubHours now 10)
      source := "MarketWatch"
      content := "Healthcare sector shows mixed results with some major drug approvals..."
      mentions := ["JNJ", "PFE", "MRNA", "ABBV"] },
    { title := "Streaming Wars Heat Up as Disney+ Subscriber Growth Slows"
      description := "Media companies face increased competition in streaming market as growth rates moderate across platforms."
      url := "https://example.com/streaming-wars"
      published_at := fmtIsoZ (dtSubHours now 12)
      source := "Forbes"
      content := "The streaming market becomes increasingly competitive as subscriber growth slows..."
      mentions := ["DIS", "NFLX", "WBD", "PARA"] },
    { title := "Banking Sector Faces Regulatory Scrutiny on Climate Risk"
      description := "Major banks prepare for new climate-related stress tests as regulators increase focus on environmental risks."
      url := "https://example.com/banking-climate"
      published_at := fmtIsoZ (dtSubHours now 14)
      source := "Financial Times"
      content := "Banking regulators are implementing new climate risk assessment requirements..."
      mentions := ["JPM", "BAC", "WFC", "C"] },
    { title := "Semiconductor Stocks Volatile on China Trade Concerns"
      description := "Chip manufacturers face uncertainty as trade tensions and export restrictions impact global supply chains."
      url := "https://example.com/semiconductor-trade"
      published_at := fmtIsoZ (dtSubHours now 16)
      source := "Benzinga"
      content := "Semiconductor companies navigate complex trade environment..."
      mentions := ["NVDA", "AMD", "INTC", "TSM"] },
    { title := "Retail Earnings Season Shows Consumer Resilience"
      description := "Major retailers report better-than-expected results as consumers continue spending despite economic pressures."
      url := "https://example.com/retail-earnings"
      published_at := fmtIsoZ (dtSubHours now 18)
      source := "Yahoo Finance"
      content := "Retail earnings demonstrate ongoing consumer strength..."
      mentions := ["WMT", "AMZN", "TGT", "COST"] },
    { title := "Gold Prices Reach New Highs Amid Market Uncertainty"
      description := "Precious metals surge as investors seek safe-haven assets during volatile market conditions."
      url := "https://example.com/gold-highs"
      published_at := fmtIsoZ (dtSubHours now 20)
      source := "MarketWatch"
      content := "Gold prices continue climbing as uncertainty drives safe-haven demand..."
      mentions := ["GLD", "GOLD", "AEM", "NEM"] } ]

/-- `fetch_market_news(days_back)`.  `tryOutcome` abstracts the search /
mention-extraction / de-duplication pipeline of the `try` block. -/
def fetch_market_news (keyPresent : Bool) (now : DT)
    (tryOutcome : Except String (List MarketArticle)) : Except String (List MarketArticle) :=
  if !keyPresent then .ok mock_market_news_dev
  else
    match tryOutcome with
    | .ok arts => .ok arts
    | .error msg =>
      if news_rate_limit_signature msg || strContains (strLower msg) "initialization failed" then
        .ok (mock_market_news_rate_limited now)
      else .error ("Market news API error: " ++ msg)

/-- The per-symbol `NewsAnalysis` dict (the empty-articles path carries no
`reasoning` key, hence the `Option`). -/
structure NewsAnalysis where
  summary : String
  sentiment : String
  sentiment_score : ℚ
  key_points : List String
  reasoning : Option String
  article_count : ℕ
  deriving DecidableEq, Repr

/-- A successfully JSON-parsed completion response with all required fields
present (`sentiment_score := none` models a non-numeric JSON value there). -/
structure ParsedAnalysis where
  summary : String
  sentiment : String
  sentiment_score : Option ℚ
  key_points : List String
  reasoning : String
  deriving DecidableEq, Repr

/-- Outcome of the completion call plus JSON parsing in
`analyze_news_with_openai` (after the brace-extraction repair attempt):
parsed, parsed-but-missing-a-required-field, or `json.loads` raised. -/
inductive CompletionOutcome where
  | parsed (p : ParsedAnalysis)
  | missingField (name : String)
  | jsonFail
  deriving DecidableEq, Repr

/-- `analyze_news_with_openai(articles, symbol)`.  A missing-field
`ValueError` is not a `json.JSONDecodeError`, so it escapes the inner
handler and is re-raised wrapped by the outer one. -/
def analyze_news_with_openai (articles : List NewsArticle) (symbol : String)
    (keyPresent : Bool) (out : CompletionOutcome) : Except String NewsAnalysis :=
  if !keyPresent then .error "OpenAI API key not found in environment variables"
  else if articles.isEmpty then
    .ok { summary := "No recent news found for this symbol."
          sentiment := "neutral", sentiment_score := 0
          key_points := [], reasoning := none, article_count := 0 }
  else
    match out with
    | .missingField name =>
      .error ("OpenAI analysis error: Missing required field: " ++ name)
    | .jsonFail =>
      let titles := (articles.take 3).map (·.title)
      .ok { summary := "Found " ++ toString articles.length ++
              " recent financial news articles about " ++ symbol ++
              ". Key headlines: " ++ String.intercalate "; " (titles.take 2)
            sentiment := "neutral", sentiment_score := 0
            key_points := titles
            reasoning := some "AI analysis failed - fallback to article titles"
            article_count := articles.length }
    | .parsed p =>
      let score0 : ℚ := match p.sentiment_score with
        | some q => q
        | none => 0
      let score1 := max (-1 : ℚ) (min 1 score0)
      let valid := p.sentiment = "bullish" ∨ p.sentiment = "bearish" ∨ p.sentiment = "neutral"
      .ok { summary := p.summary
            sentiment := if valid then p.sentiment else "neutral"
            sentiment_score := if valid then score1 else 0
            key_points := p.key_points
            reasoning := some p.reasoning
            article_count := articles.length }

/-! ## HTTP route layer -/

/-- Response of `GET /api/stock/{symbol}`. -/
inductive StockResponse where
  | rateLimited (msg : String)
  | badRequest (msg : String)
  | okData (d : StockData)
  deriving DecidableEq

/-- `get_stock_data(symbol, request)`: rate limit (429), validate (400 on
`ValueError`), fetch (any fetch failure is re-wrapped and surfaces as a
generic 400). -/
def get_stock_data (symbol client_ip : String) (rl : RLState) (reqTime : ℚ)
    (keyPresent : Bool) (resp : AVResp QuoteFields) (overview : Option OverviewData)
    (mockRand : StockRand) : StockResponse × RLState :=
  let checked := check_rate_limit rl client_ip reqTime 30 1
  if !checked.1 then
    (.rateLimited "Rate limit exceeded. Please try again later.", checked.2)
  else
    match validate_symbol symbol with
    | .error msg => (.badRequest msg, checked.2)
    | .ok clean_symbol =>
      match fetch_alpha_vantage_stock clean_symbol keyPresent resp overview mockRand with
      | .ok d => (.okData d, checked.2)
      | .error _ => (.badRequest "Unable to fetch stock data", checked.2)

/-- Response of `GET /api/stock/{symbol}/history`. -/
inductive HistoryResponse where
  | badRequest (msg : String)
  | okH (symbol period : String) (data : List HistoryPoint) (data_points : ℕ)
      (period_high period_low : ℚ) (is_mock_data : Bool)
  deriving DecidableEq

/-- `get_stock_history(symbol, period)`. -/
def get_stock_history (symbol period : String) (keyPresent : Bool) (cache : ChartCache)
    (now nowEst : DT) (resp : AVResp (List RawBar)) (sRand : StockRand)
    (rand : ℕ → StepRand) : HistoryResponse × ChartCache :=
  match validate_symbol symbol with
  | .error msg => (.badRequest msg, cache)
  | .ok clean_symbol =>
    if period ∉ ["1d", "1w", "3m", "1y"] then
      (.badRequest "Invalid period. Must be one of: 1d, 1w, 3m, 1y", cache)
    else
      let out := fetch_alpha_vantage_history clean_symbol period keyPresent cache now nowEst
        resp sRand rand
      match out.result with
      | .ok h =>
        (.okH clean_symbol period h.data h.data.length h.period_high h.period_low
          h.is_mock_data, out.cache)
      | .error _ => (.badRequest "Unable to fetch historical data", out.cache)

/-- Response of `GET /api/news/{symbol}`. -/
inductive NewsResponse where
  | badRequest (msg : String)
  | payload (symbol : String) (analysis : NewsAnalysis) (raw_articles : List NewsArticle)
      (last_updated : String) (is_mock_data : Bool)
  deriving DecidableEq

/-- `get_news_insights(symbol)`. -/
def get_news_insights (symbol : String) (now : DT) (newsKey openaiKey : Bool)
    (newsTry : Except String (List NewsArticle)) (completion : CompletionOutcome) :
    NewsResponse :=
  match validate_symbol symbol with
  | .error msg => .badRequest msg
  | .ok clean_symbol =>
    match fetch_news_for_symbol clean_symbol newsKey newsTry with
    | .error _ => .badRequest "Unable to fetch news insights"
    | .ok articles =>
      match analyze_news_with_openai articles clean_symbol openaiKey completion with
      | .error _ => .badRequest "Unable to fetch news insights"
      | .ok analysis =>
        let is_mock_data := match articles with
          | [] => false
          | a :: _ => strContains a.url "example.com"
        .payload clean_symbol analysis (articles.take 5) (isoformat now) is_mock_data

/-- One `trending_stocks` entry of a `MarketAnalysis`. -/
structure TrendingStock where
  symbol : String
  reason : String
  sentiment : String
  deriving DecidableEq, Repr

/-- One `high_impact_events` entry of a `MarketAnalysis`. -/
structure ImpactEvent where
  event : String
  impact : String
  timeframe : String
  deriving DecidableEq, Repr

/-- The market-wide analysis dict. -/
structure MarketAnalysis where
  market_sentiment : String
  trending_stocks : List TrendingStock
  key_themes : List String
  daily_summary : String
  high_impact_events : List ImpactEvent
  article_count : ℕ
  last_updated : String
  deriving DecidableEq, Repr

/-- The fallback analysis built inline in `get_market_insights` when
`analyze_market_trends_with_openai` raises (e.g. missing OpenAI key). -/
def insights_inner_fallback (articles : List MarketArticle) (now : DT) : MarketAnalysis :=
  { market_sentiment := "neutral"
    trending_stocks :=
      [ ⟨"AAPL", "Technology sector leader", "bullish"⟩
      , ⟨"TSLA", "Electric vehicle innovation", "bullish"⟩
      , ⟨"NVDA", "AI chip demand", "bullish"⟩
      , ⟨"MSFT", "Cloud computing growth", "bullish"⟩
      , ⟨"AMZN", "E-commerce dominance", "neutral"⟩ ]
    key_themes := ["Technology Innovation", "Market Stability", "Economic Growth"]
    daily_summary := "Markets showing mixed signals with technology stocks leading gains while traditional sectors remain stable."
    high_impact_events :=
      [ ⟨"Federal Reserve Meeting", "high", "This Week"⟩
      , ⟨"Tech Earnings Reports", "medium", "Next Week"⟩ ]
    article_count := articles.length
    last_updated := isoformat now }

/-- The hardcoded analysis of the final fallback branch of
`get_market_insights` (`article_count` is the literal 10). -/
def insights_final_fallback_analysis (now : DT) : MarketAnalysis :=
  { insights_inner_fallback [] now with article_count := 10 }

/-- The five hardcoded articles of the final fallback branch. -/
def insights_final_fallback_articles (now : DT) : List MarketArticle :=
  [ { title := "Tech Stocks Rally as AI Spending Drives Growth"
      description := "Major technology companies see stock prices surge amid increased investment in artificial intelligence infrastructure and services."
      url := "https://example.com/tech-rally"
      published_at := fmtIsoZ (dtSubHours now 2)
      source := "Reuters"
      content := "Technology stocks continued their upward momentum as companies report strong AI-related revenue growth..."
      mentions := ["NVDA", "MSFT", "GOOGL", "META"] },
    { title := "Federal Reserve Maintains Interest Rates Amid Economic Uncertainty"
      description := "The Federal Reserve keeps interest rates steady while monitoring inflation trends and employment data."
      url := "https://example.com/fed-rates"
      published_at := fmtIsoZ (dtSubHours now 4)
      source := "Wall Street Journal"
      content := "The Federal Reserve announced its decision to maintain current interest rates..."
      mentions := ["SPY", "QQQ", "DJI"] },
    { title := "Electric Vehicle Sales Surge Despite Market Headwinds"
      description := "EV manufacturers report strong quarterly deliveries as consumer adoption accelerates globally."
      url := "https://example.com/ev-sales"
      published_at := fmtIsoZ (dtSubHours now 6)
      source := "Bloomberg"
      content := "Electric vehicle sales continue to outpace traditional auto sales..."
      mentions := ["TSLA", "RIVN", "LCID", "NIO"] },
    { title := "Energy Sector Gains on Rising Oil Prices"
      description := "Oil and gas companies see stock gains as crude prices climb amid supply concerns and geopolitical tensions."
      url := "https://example.com/energy-gains"
      published_at := fmtIsoZ (dtSubHours now 8)
      source := "CNBC"
      content := "Energy stocks surged as oil prices reached new monthly highs..."
      mentions := ["XOM", "CVX", "COP", "EOG"] },
    { title := "Healthcare Stocks Mixed on Drug Approval News"
      description := "Pharmaceutical companies show varied performance following FDA approvals and clinical trial results."
      url := "https://example.com/healthcare-mixed"
      published_at := fmtIsoZ (dtSubHours now 10)
      source := "MarketWatch"
      content := "Healthcare sector shows mixed results with some major drug approvals..."
      mentions := ["JNJ", "PFE", "MRNA", "ABBV"] } ]

/-- Response of `GET /api/market/insights`. -/
inductive InsightsResponse where
  | badRequest (msg : String)
  | payload (analysis : MarketAnalysis) (raw_articles : List MarketArticle)
      (last_updated : String) (days_back : ℤ) (is_mock_data : Bool)
  deriving DecidableEq

/-- `get_market_insights(days_back)`.  `newsOut` is the result of
`fetch_market_news` (its raised exception reaches the outer handler);
`aiOut` the result of `analyze_market_trends_with_openai` (its raised
exception is absorbed by the inner handler). -/
def get_market_insights (days_back : ℤ) (now : DT)
    (newsOut : Except String (List MarketArticle))
    (aiOut : Except String MarketAnalysis) : InsightsResponse :=
  if days_back < 1 ∨ 7 < days_back then
    .badRequest "days_back must be between 1 and 7"
  else
    match newsOut with
    | .ok articles =>
      let analysis := match aiOut with
        | .ok a => a
        | .error _ => insights_inner_fallback articles now
      let is_mock_data := match articles with
        | [] => false
        | a :: _ => strContains a.url "example.com"
      .payload analysis (articles.take 10) (isoformat now) days_back is_mock_data
    | .error _ =>
      .payload (insights_final_fallback_analysis now) (insights_final_fallback_articles now)
        (isoformat now) days_back true

/-! ## Series shape: the property C3 asserts of a HistorySeries response -/

/-- The array is sorted ascending by its date/timestamp string. -/
def SortedByDate (l : List HistoryPoint) : Prop :=
  l.Pairwise (fun a b => strLeB a.date b.date = true)

/-- The C3 property of one `HistoryResult`: sorted ascending by date string,
`period_high` = max of the highs and `period_low` = min of the lows over the
data array, and `0`/`0` (not an error) when the array is empty. -/
def GoodSeries (r : HistoryResult) : Prop :=
  SortedByDate r.data ∧
  (r.data = [] → r.period_high = 0 ∧ r.period_low = 0) ∧
  (∀ p ∈ r.data, p.high ≤ r.period_high) ∧
  (r.data ≠ [] → ∃ p ∈ r.data, r.period_high = p.high) ∧
  (∀ p ∈ r.data, r.period_low ≤ p.low) ∧
  (r.data ≠ [] → ∃ p ∈ r.data, r.period_low = p.low)

/-! ## Theorems -/

theorem charListLe_refl (l : List Char) : charListLe l l = true := by
  induction l with
  | nil => rfl
  | cons a as ih => simp [charListLe, ih]

theorem charListLe_of_lt {l m : List Char} (h : charListLt l m = true) :
    charListLe l m = true := by
  induction l generalizing m with
  | nil => cases m <;> rfl
  | cons a as ih =>
    cases m with
    | nil => simp [charListLt] at h
    | cons b bs =>
      by_cases hab : a < b
      · simp [charListLe, hab]
      · by_cases heq : a = b
        · subst heq
          simp [charListLt, hab] at h
          simp [charListLe, hab, ih h]
        · simp [charListLt, hab, heq] at h

theorem charListLt_append {l₁ l₂ t₁ t₂ : List Char}
    (h : charListLt l₁ l₂ = true) (hlen : l₁.length = l₂.length) :
    charListLt (l₁ ++ t₁) (l₂ ++ t₂) = true := by
  induction l₁ generalizing l₂ with
  | nil =>
    cases l₂ with
    | nil => simp [charListLt] at h
    | cons b bs => simp at hlen
  | cons a as ih =>
    cases l₂ with
    | nil => simp at hlen
    | cons b bs =>
      by_cases hab : a < b
      · simp [charListLt, hab]
      · by_cases heq : a = b
        · subst heq
          simp [charListLt, hab] at h ⊢
          exact ih h (by simpa using hlen)
        · simp [charListLt, hab, heq] at h

theorem charListLt_append_same_left (l t₁ t₂ : List Char)
    (h : charListLt t₁ t₂ = true) :
    charListLt (l ++ t₁) (l ++ t₂) = true := by
  induction l with
  | nil => simpa using h
  | cons a as ih => simpa [charListLt] using ih

theorem charListEq_append {l₁ l₂ : List Char} (t : List Char) (h : l₁ = l₂) :
    l₁ ++ t = l₂ ++ t := by rw [h]

set_option maxRecDepth 100000 in
theorem pad2_lt : ∀ a < 100, ∀ b < 100, a < b → charListLt (pad2 a) (pad2 b) = true := by
  decide

theorem pad2_length (n : ℕ) : (pad2 n).length = 2 := rfl

theorem pad4_length (n : ℕ) : (pad4 n).length = 4 := rfl

theorem pad4_lt {a b : ℕ} (ha : a < 10000) (hb : b < 10000) (h : a < b) :
    charListLt (pad4 a) (pad4 b) = true := by
  unfold pad4
  rcases Nat.lt_or_ge (a / 100) (b / 100) with hq | hq
  · exact charListLt_append
      (pad2_lt _ (by omega) _ (by omega) hq) (by simp [pad2_length])
  · have hqe : a / 100 = b / 100 := by omega
    rw [hqe]
    apply charListLt_append_same_left
    have hr : a % 100 < b % 100 := by omega
    exact pad2_lt _ (by omega) _ (by omega) hr

theorem monthLen_le (y m : ℕ) : monthLen y m ≤ 31 := by
  unfold monthLen; split
  · split <;> omega
  · split <;> omega

theorem monthLen_pos (y m : ℕ) : 1 ≤ monthLen y m := by
  unfold monthLen; split
  · split <;> omega
  · split <;> omega

theorem dtKey_eq (t : DT) : dtKey t = dateKey t * 1440 + t.hour * 60 + t.minute := by
  unfold dtKey dateKey; ring

/-! ### Order lemmas for the datetime model -/

theorem DTWF_addDay {t : DT} (h : DTWF t) : DTWF (addDay t) := by
  obtain ⟨h1, h2, h3, h4, h5, h6⟩ := h
  have hml := monthLen_le t.year t.month
  unfold addDay DTWF
  split
  any_goals split
  all_goals (try simp)
  all_goals omega

theorem dateKey_lt_addDay {t : DT} (h : DTWF t) : dateKey t < dateKey (addDay t) := by
  obtain ⟨h1, h2, h3, h4, h5, h6⟩ := h
  have hml := monthLen_le t.year t.month
  unfold addDay dateKey
  split
  any_goals split
  all_goals (try simp)
  all_goals omega

theorem addDay_hour (t : DT) : (addDay t).hour = t.hour := by
  unfold addDay; split
  · rfl
  · split <;> rfl

theorem addDay_minute (t : DT) : (addDay t).minute = t.minute := by
  unfold addDay; split
  · rfl
  · split <;> rfl

theorem dtKey_lt_addDay {t : DT} (h : DTWF t) : dtKey t < dtKey (addDay t) := by
  rw [dtKey_eq, dtKey_eq, addDay_hour, addDay_minute]
  have := dateKey_lt_addDay h
  omega

theorem addDay_year_le (t : DT) : (addDay t).year ≤ t.year + 1 := by
  unfold addDay; split
  · simp
  · split <;> simp

theorem DTWF_addDays {t : DT} (h : DTWF t) (n : ℕ) : DTWF (addDays n t) := by
  induction n with
  | zero => exact h
  | succ k ih =>
    unfold addDays at *
    rw [Function.iterate_succ_apply']
    exact DTWF_addDay ih

theorem addDays_year_le (t : DT) (n : ℕ) : (addDays n t).year ≤ t.year + n := by
  induction n with
  | zero => simp [addDays]
  | succ k ih =>
    unfold addDays at *
    rw [Function.iterate_succ_apply']
    have := addDay_year_le (addDay^[k] t)
    omega

theorem dtKey_lt_addDays {t : DT} (h : DTWF t) {a b : ℕ} (hab : a < b) :
    dtKey (addDays a t) < dtKey (addDays b t) := by
  induction b with
  | zero => omega
  | succ k ih =>
    unfold addDays at *
    rw [Function.iterate_succ_apply']
    have hk : dtKey (addDay^[k] t) < dtKey (addDay (addDay^[k] t)) :=
      dtKey_lt_addDay (DTWF_addDays h k)
    rcases Nat.lt_or_ge a k with hlt | hge
    · exact lt_trans (ih hlt) hk
    · have : a = k := by omega
      subst this
      exact hk

theorem DTWF_addMinute {t : DT} (h : DTWF t) : DTWF (addMinute t) := by
  obtain ⟨h1, h2, h3, h4, h5, h6⟩ := h
  have hd := DTWF_addDay (t := t) ⟨h1, h2, h3, h4, h5, h6⟩
  obtain ⟨g1, g2, g3, g4, g5, g6⟩ := hd
  unfold addMinute DTWF
  split
  any_goals split
  all_goals (try simp)
  all_goals omega

theorem dtKey_lt_addMinute {t : DT} (h : DTWF t) : dtKey t < dtKey (addMinute t) := by
  obtain ⟨h1, h2, h3, h4, h5, h6⟩ := h
  unfold addMinute
  split
  · simp [dtKey]
  · split
    · simp [dtKey]
      omega
    · have hlt := dateKey_lt_addDay (t := t) ⟨h1, h2, h3, h4, h5, h6⟩
      have : dtKey { addDay t with hour := 0, minute := 0 } = dateKey (addDay t) * 1440 := by
        rw [dtKey_eq]
        simp [dateKey]
      rw [this, dtKey_eq]
      omega

theorem DTWF_addMinutes {t : DT} (h : DTWF t) (n : ℕ) : DTWF (addMinutes n t) := by
  induction n with
  | zero => exact h
  | succ k ih =>
    unfold addMinutes at *
    rw [Function.iterate_succ_apply']
    exact DTWF_addMinute ih

theorem dtKey_lt_addMinutes {t : DT} (h : DTWF t) {a b : ℕ} (hab : a < b) :
    dtKey (addMinutes a t) < dtKey (addMinutes b t) := by
  induction b with
  | zero => omega
  | succ k ih =>
    unfold addMinutes at *
    rw [Function.iterate_succ_apply']
    have hk : dtKey (addMinute^[k] t) < dtKey (addMinute (addMinute^[k] t)) :=
      dtKey_lt_addMinute (DTWF_addMinutes h k)
    rcases Nat.lt_or_ge a k with hlt | hge
    · exact lt_trans (ih hlt) hk
    · have : a = k := by omega
      subst this
      exact hk

theorem DTWF_subDay {t : DT} (h : DTWF t) : DTWF (subDay t) := by
  obtain ⟨h1, h2, h3, h4, h5, h6⟩ := h
  have hml := monthLen_le t.year (t.month - 1)
  have hmp := monthLen_pos t.year (t.month - 1)
  unfold subDay DTWF
  split
  any_goals split
  all_goals (try simp)
  all_goals omega

theorem DTWF_subDays {t : DT} (h : DTWF t) (n : ℕ) : DTWF (subDays n t) := by
  induction n with
  | zero => exact h
  | succ k ih =>
    unfold subDays at *
    rw [Function.iterate_succ_apply']
    exact DTWF_subDay ih

theorem subDay_year_le (t : DT) : (subDay t).year ≤ t.year := by
  unfold subDay; split
  · simp
  · split
    · simp
    · simp

theorem subDays_year_le (t : DT) (n : ℕ) : (subDays n t).year ≤ t.year := by
  induction n with
  | zero => simp [subDays]
  | succ k ih =>
    unfold subDays at *
    rw [Function.iterate_succ_apply']
    have := subDay_year_le (subDay^[k] t)
    omega

theorem dateKey_subDay_lt {t : DT} (h : DTWF t) (hy : 1 ≤ t.year) :
    dateKey (subDay t) < dateKey t := by
  obtain ⟨h1, h2, h3, h4, h5, h6⟩ := h
  have hl := monthLen_le t.year (t.month - 1)
  have hp := monthLen_pos t.year (t.month - 1)
  unfold subDay dateKey
  split
  any_goals split
  all_goals (try simp)
  all_goals omega

theorem year_le_of_dtKey_le {a b : DT} (ha : DTWF a) (hb : DTWF b)
    (h : dtKey a ≤ dtKey b) : a.year ≤ b.year := by
  obtain ⟨a1, a2, a3, a4, a5, a6⟩ := ha
  obtain ⟨b1, b2, b3, b4, b5, b6⟩ := hb
  unfold dtKey at h
  omega

/-! ### Format monotonicity -/

theorem fmtDateL_length (t : DT) : (fmtDateL t).length = 10 := by
  simp [fmtDateL, pad4_length, pad2_length]

theorem charListLt_cons_same (c : Char) (t₁ t₂ : List Char)
    (h : charListLt t₁ t₂ = true) : charListLt (c :: t₁) (c :: t₂) = true := by
  simp [charListLt, h]

theorem pad2_eq_of_eq {a b : ℕ} (h : a = b) : pad2 a = pad2 b := by rw [h]

theorem fmtDateL_lt {a b : DT} (hwa : DTWF a) (hwb : DTWF b)
    (hya : a.year < 10000) (hyb : b.year < 10000)
    (hdate : dateKey a < dateKey b) :
    charListLt (fmtDateL a) (fmtDateL b) = true := by
  obtain ⟨a1, a2, a3, a4, _, _⟩ := hwa
  obtain ⟨b1, b2, b3, b4, _, _⟩ := hwb
  have hcases : a.year < b.year ∨
      (a.year = b.year ∧ (a.month < b.month ∨ (a.month = b.month ∧ a.day < b.day))) := by
    unfold dateKey at hdate
    omega
  unfold fmtDateL
  rcases hcases with hy | ⟨hy, hm | ⟨hm, hd⟩⟩
  · exact charListLt_append (pad4_lt hya hyb hy) (by simp [pad4_length])
  · rw [hy]
    apply charListLt_append_same_left
    apply charListLt_cons_same
    exact charListLt_append (pad2_lt _ (by omega) _ (by omega) hm) (by simp [pad2_length])
  · rw [hy, hm]
    apply charListLt_append_same_left
    apply charListLt_cons_same
    apply charListLt_append_same_left
    apply charListLt_cons_same
    exact pad2_lt _ (by omega) _ (by omega) hd

theorem dt_eq_of_dtKey_eq {a b : DT} (hwa : DTWF a) (hwb : DTWF b)
    (h : dtKey a = dtKey b) : a = b := by
  obtain ⟨a1, a2, a3, a4, a5, a6⟩ := hwa
  obtain ⟨b1, b2, b3, b4, b5, b6⟩ := hwb
  unfold dtKey at h
  cases a; cases b
  simp_all
  omega

theorem dateKey_fields_eq {a b : DT} (hwa : DTWF a) (hwb : DTWF b)
    (h : dateKey a = dateKey b) : a.year = b.year ∧ a.month = b.month ∧ a.day = b.day := by
  obtain ⟨a1, a2, a3, a4, _, _⟩ := hwa
  obtain ⟨b1, b2, b3, b4, _, _⟩ := hwb
  unfold dateKey at h
  omega

theorem fmtDateTimeL_lt {a b : DT} (hwa : DTWF a) (hwb : DTWF b)
    (hya : a.year < 10000) (hyb : b.year < 10000)
    (h : dtKey a < dtKey b) :
    charListLt (fmtDateTimeL a) (fmtDateTimeL b) = true := by
  have ha5 : a.hour < 24 := hwa.2.2.2.2.1
  have ha6 : a.minute < 60 := hwa.2.2.2.2.2
  have hb5 : b.hour < 24 := hwb.2.2.2.2.1
  have hb6 : b.minute < 60 := hwb.2.2.2.2.2
  unfold fmtDateTimeL
  rcases Nat.lt_or_ge (dateKey a) (dateKey b) with hd | hd
  · exact charListLt_append (fmtDateL_lt hwa hwb hya hyb hd) (by simp [fmtDateL_length])
  · have hdeq : dateKey a = dateKey b := by
      rw [dtKey_eq, dtKey_eq] at h
      omega
    obtain ⟨hy, hm, hdd⟩ := dateKey_fields_eq hwa hwb hdeq
    have hfd : fmtDateL a = fmtDateL b := by
      unfold fmtDateL
      rw [hy, hm, hdd]
    rw [hfd]
    apply charListLt_append_same_left
    apply charListLt_cons_same
    have htime : a.hour < b.hour ∨ (a.hour = b.hour ∧ a.minute < b.minute) := by
      rw [dtKey_eq, dtKey_eq, hdeq] at h
      omega
    rcases htime with hh | ⟨hh, hmi⟩
    · exact charListLt_append (pad2_lt _ (by omega) _ (by omega) hh) (by simp [pad2_length])
    · rw [hh]
      apply charListLt_append_same_left
      apply charListLt_cons_same
      exact charListLt_append (pad2_lt _ (by omega) _ (by omega) hmi) (by simp [pad2_length])

theorem fmtDateL_le {a b : DT} (hwa : DTWF a) (hwb : DTWF b)
    (hya : a.year < 10000) (hyb : b.year < 10000)
    (h : dateKey a ≤ dateKey b) :
    charListLe (fmtDateL a) (fmtDateL b) = true := by
  rcases Nat.lt_or_ge (dateKey a) (dateKey b) with hd | hd
  · exact charListLe_of_lt (fmtDateL_lt hwa hwb hya hyb hd)
  · have hdeq : dateKey a = dateKey b := by omega
    obtain ⟨hy, hm, hdd⟩ := dateKey_fields_eq hwa hwb hdeq
    have : fmtDateL a = fmtDateL b := by
      unfold fmtDateL
      rw [hy, hm, hdd]
    rw [this]
    exact charListLe_refl _

theorem fmtDateTimeL_le {a b : DT} (hwa : DTWF a) (hwb : DTWF b)
    (hya : a.year < 10000) (hyb : b.year < 10000)
    (h : dtKey a ≤ dtKey b) :
    charListLe (fmtDateTimeL a) (fmtDateTimeL b) = true := by
  rcases Nat.lt_or_ge (dtKey a) (dtKey b) with hd | hd
  · exact charListLe_of_lt (fmtDateTimeL_lt hwa hwb hya hyb hd)
  · have : a = b := dt_eq_of_dtKey_eq hwa hwb (by omega)
    rw [this]
    exact charListLe_refl _

theorem strLeB_fmtDate {a b : DT} (hwa : DTWF a) (hwb : DTWF b)
    (hya : a.year < 10000) (hyb : b.year < 10000)
    (h : dateKey a ≤ dateKey b) : strLeB (fmtDate a) (fmtDate b) = true :=
  fmtDateL_le hwa hwb hya hyb h

theorem strLeB_fmtDateTime {a b : DT} (hwa : DTWF a) (hwb : DTWF b)
    (hya : a.year < 10000) (hyb : b.year < 10000)
    (h : dtKey a ≤ dtKey b) : strLeB (fmtDateTime a) (fmtDateTime b) = true :=
  fmtDateTimeL_le hwa hwb hya hyb h

/-! ## Python `list.sort(key=...)` and `max`/`min` over lists -/

theorem charListLe_total : ∀ l m : List Char, charListLe l m = true ∨ charListLe m l = true := by
  intro l
  induction l with
  | nil => intro m; left; rfl
  | cons a as ih =>
    intro m
    cases m with
    | nil => right; rfl
    | cons b bs =>
      rcases lt_trichotomy a b with h | h | h
      · left; simp [charListLe, h]
      · subst h
        rcases ih bs with h2 | h2
        · left; simp [charListLe, lt_irrefl, h2]
        · right; simp [charListLe, lt_irrefl, h2]
      · right; simp [charListLe, h]

theorem strLeB_total (s t : String) : strLeB s t = true ∨ strLeB t s = true :=
  charListLe_total s.toList t.toList

theorem mem_insertSorted {le : α → α → Bool} {x z : α} {l : List α} :
    z ∈ insertSorted le x l ↔ z = x ∨ z ∈ l := by
  induction l with
  | nil => simp [insertSorted]
  | cons y ys ih =>
    unfold insertSorted
    split
    · simp
    · simp only [List.mem_cons, ih]
      tauto

theorem charListLe_trans :
    ∀ l m n : List Char, charListLe l m = true → charListLe m n = true →
      charListLe l n = true := by
  intro l
  induction l with
  | nil => intro m n _ _; rfl
  | cons a as ih =>
    intro m n h1 h2
    cases m with
    | nil => simp [charListLe] at h1
    | cons b bs =>
      cases n with
      | nil => simp [charListLe] at h2
      | cons c cs =>
        by_cases hab : a < b
        · by_cases hbc : b < c
          · have hac : a < c := lt_trans hab hbc
            simp [charListLe, hac]
          · by_cases hbc2 : b = c
            · subst hbc2; simp [charListLe, hab]
            · simp [charListLe, hbc, hbc2] at h2
        · by_cases hab2 : a = b
          · subst hab2
            simp [charListLe, lt_irrefl] at h1
            by_cases hbc : a < c
            · simp [charListLe, hbc]
            · by_cases hbc2 : a = c
              · subst hbc2
                simp [charListLe, lt_irrefl] at h2 ⊢
                exact ih bs cs h1 h2
              · simp [charListLe, hbc, hbc2] at h2
          · simp [charListLe, hab, hab2] at h1

theorem strLeB_trans {s t u : String} (h1 : strLeB s t = true) (h2 : strLeB t u = true) :
    strLeB s u = true :=
  charListLe_trans _ _ _ h1 h2

theorem pairwise_insertSorted {le : α → α → Bool}
    (htot : ∀ a b, le a b = true ∨ le b a = true)
    (htrans : ∀ a b c, le a b = true → le b c = true → le a c = true)
    {x : α} {l : List α}
    (h : l.Pairwise (fun a b => le a b = true)) :
    (insertSorted le x l).Pairwise (fun a b => le a b = true) := by
  induction l with
  | nil => simp [insertSorted]
  | cons y ys ih =>
    obtain ⟨hhead, htail⟩ := List.pairwise_cons.mp h
    unfold insertSorted
    split
    · rename_i hxy
      refine List.Pairwise.cons ?_ h
      intro z hz
      rcases List.mem_cons.mp hz with rfl | hz'
      · exact hxy
      · exact htrans x y z hxy (hhead z hz')
    · rename_i hxy
      have hyx : le y x = true := by
        rcases htot x y with h1 | h1
        · exact absurd h1 (by simpa using hxy)
        · exact h1
      refine List.Pairwise.cons ?_ (ih htail)
      intro z hz
      rcases mem_insertSorted.mp hz with rfl | hz'
      · exact hyx
      · exact hhead z hz'

theorem pairwise_pySort {le : α → α → Bool}
    (htot : ∀ a b, le a b = true ∨ le b a = true)
    (htrans : ∀ a b c, le a b = true → le b c = true → le a c = true) (l : List α) :
    (pySort le l).Pairwise (fun a b => le a b = true) := by
  induction l with
  | nil => simp [pySort]
  | cons x xs ih => exact pairwise_insertSorted htot htrans ih

theorem mem_pySort {le : α → α → Bool} {z : α} {l : List α} :
    z ∈ pySort le l ↔ z ∈ l := by
  induction l with
  | nil => simp [pySort]
  | cons x xs ih =>
    unfold pySort
    rw [mem_insertSorted]
    simp [ih]

theorem le_foldl_max (l : List ℚ) (a : ℚ) : a ≤ l.foldl max a := by
  induction l generalizing a with
  | nil => simp
  | cons x xs ih => exact le_trans (le_max_left a x) (ih (max a x))

theorem le_foldl_max_of_mem {l : List ℚ} {x : ℚ} (hx : x ∈ l) (a : ℚ) :
    x ≤ l.foldl max a := by
  induction l generalizing a with
  | nil => simp at hx
  | cons y ys ih =>
    rcases List.mem_cons.mp hx with rfl | hx'
    · exact le_trans (le_max_right a x) (le_foldl_max ys (max a x))
    · exact ih hx' (max a y)

theorem foldl_max_mem (l : List ℚ) (a : ℚ) : l.foldl max a = a ∨ l.foldl max a ∈ l := by
  induction l generalizing a with
  | nil => left; rfl
  | cons x xs ih =>
    rcases ih (max a x) with h | h
    · rcases le_total a x with hax | hxa
      · right
        rw [List.foldl_cons, h, max_eq_right hax]
        exact List.mem_cons_self x xs
      · left
        rw [List.foldl_cons, h, max_eq_left hxa]
    · right
      exact List.mem_cons_of_mem x h

theorem le_pyMax {l : List ℚ} {x : ℚ} (hx : x ∈ l) : x ≤ pyMax l := by
  cases l with
  | nil => simp at hx
  | cons y ys =>
    rcases List.mem_cons.mp hx with rfl | hx'
    · exact le_foldl_max ys x
    · exact le_foldl_max_of_mem hx' y

theorem pyMax_mem {l : List ℚ} (h : l ≠ []) : pyMax l ∈ l := by
  cases l with
  | nil => exact absurd rfl h
  | cons y ys =>
    rcases foldl_max_mem ys y with h2 | h2
    · rw [pyMax, h2]; exact List.mem_cons_self y ys
    · exact List.mem_cons_of_mem y h2

theorem foldl_min_le (l : List ℚ) (a : ℚ) : l.foldl min a ≤ a := by
  induction l generalizing a with
  | nil => simp
  | cons x xs ih => exact le_trans (ih (min a x)) (min_le_left a x)

theorem foldl_min_le_of_mem {l : List ℚ} {x : ℚ} (hx : x ∈ l) (a : ℚ) :
    l.foldl min a ≤ x := by
  induction l generalizing a with
  | nil => simp at hx
  | cons y ys ih =>
    rcases List.mem_cons.mp hx with rfl | hx'
    · exact le_trans (foldl_min_le ys (min a x)) (min_le_right a x)
    · exact ih hx' (min a y)

theorem foldl_min_mem (l : List ℚ) (a : ℚ) : l.foldl min a = a ∨ l.foldl min a ∈ l := by
  induction l generalizing a with
  | nil => left; rfl
  | cons x xs ih =>
    rcases ih (min a x) with h | h
    · rcases le_total a x with hax | hxa
      · left
        rw [List.foldl_cons, h, min_eq_left hax]
      · right
        rw [List.foldl_cons, h, min_eq_right hxa]
        exact List.mem_cons_self x xs
    · right
      exact List.mem_cons_of_mem x h

theorem pyMin_le {l : List ℚ} {x : ℚ} (hx : x ∈ l) : pyMin l ≤ x := by
  cases l with
  | nil => simp at hx
  | cons y ys =>
    rcases List.mem_cons.mp hx with rfl | hx'
    · exact foldl_min_le ys x
    · exact foldl_min_le_of_mem hx' y

theorem pyMin_mem {l : List ℚ} (h : l ≠ []) : pyMin l ∈ l := by
  cases l with
  | nil => exact absurd rfl h
  | cons y ys =>
    rcases foldl_min_mem ys y with h2 | h2
    · rw [pyMin, h2]; exact List.mem_cons_self y ys
    · exact List.mem_cons_of_mem y h2

/-! ## Character-case lemmas (for the validator) -/

theorem char_toNat_ofNat {n : ℕ} (h : n < 55296) : (Char.ofNat n).toNat = n := by
  rw [Char.ofNat, dif_pos (Or.inl h)]
  simp [Char.ofNatAux, Char.toNat, UInt32.ofNat', UInt32.toNat]

theorem uofNat_le_val {n : ℕ} (hn : n < UInt32.size) {a : UInt32} (h : n ≤ a.toNat) :
    UInt32.ofNat n ≤ a := by
  by_contra hc
  have hlt : a < UInt32.ofNat n := UInt32.not_le.mp hc
  have := UInt32.toNat_lt_of_lt hn hlt
  omega

theorem val_le_uofNat {n : ℕ} (hn : n < UInt32.size) {a : UInt32} (h : a.toNat ≤ n) :
    a ≤ UInt32.ofNat n := by
  by_contra hc
  have hlt : UInt32.ofNat n < a := UInt32.not_le.mp hc
  have := UInt32.lt_toNat_of_lt hn hlt
  omega

theorem uofNat_le_val_iff {n : ℕ} (hn : n < UInt32.size) (a : UInt32) :
    (UInt32.ofNat n ≤ a) ↔ n ≤ a.toNat :=
  ⟨fun h => UInt32.le_toNat_of_le hn h, uofNat_le_val hn⟩

theorem val_le_uofNat_iff {n : ℕ} (hn : n < UInt32.size) (a : UInt32) :
    (a ≤ UInt32.ofNat n) ↔ a.toNat ≤ n :=
  ⟨fun h => UInt32.toNat_le_of_le hn h, val_le_uofNat hn⟩

theorem isAlphanum_iff (c : Char) : c.isAlphanum = true ↔
    ((65 ≤ c.toNat ∧ c.toNat ≤ 90) ∨ (97 ≤ c.toNat ∧ c.toNat ≤ 122) ∨
      (48 ≤ c.toNat ∧ c.toNat ≤ 57)) := by
  have e65 := uofNat_le_val_iff (n := 65) (by decide) c.val
  have e90 := val_le_uofNat_iff (n := 90) (by decide) c.val
  have e97 := uofNat_le_val_iff (n := 97) (by decide) c.val
  have e122 := val_le_uofNat_iff (n := 122) (by decide) c.val
  have e48 := uofNat_le_val_iff (n := 48) (by decide) c.val
  have e57 := val_le_uofNat_iff (n := 57) (by decide) c.val
  simp only [Char.isAlphanum, Char.isAlpha, Char.isUpper, Char.isLower, Char.isDigit,
    Bool.or_eq_true, Bool.and_eq_true, decide_eq_true_eq, ge_iff_le]
  constructor
  · rintro ((⟨h1, h2⟩ | ⟨h1, h2⟩) | ⟨h1, h2⟩)
    · exact Or.inl ⟨e65.mp h1, e90.mp h2⟩
    · exact Or.inr (Or.inl ⟨e97.mp h1, e122.mp h2⟩)
    · exact Or.inr (Or.inr ⟨e48.mp h1, e57.mp h2⟩)
  · rintro (⟨h1, h2⟩ | ⟨h1, h2⟩ | ⟨h1, h2⟩)
    · exact Or.inl (Or.inl ⟨e65.mpr h1, e90.mpr h2⟩)
    · exact Or.inl (Or.inr ⟨e97.mpr h1, e122.mpr h2⟩)
    · exact Or.inr ⟨e48.mpr h1, e57.mpr h2⟩

/-- Uppercasing preserves alphanumericity, so stripping-then-uppercasing
agrees with the code's uppercasing-then-stripping. -/
theorem isAlphanum_toUpper (c : Char) : (Char.toUpper c).isAlphanum = c.isAlphanum := by
  unfold Char.toUpper
  simp only []
  split
  · rename_i h
    obtain ⟨h1, h2⟩ := h
    have htn : (Char.ofNat (c.toNat - 32)).toNat = c.toNat - 32 :=
      char_toNat_ofNat (by omega)
    have hup : (Char.ofNat (c.toNat - 32)).isAlphanum = true := by
      rw [isAlphanum_iff, htn]
      omega
    have hlo : c.isAlphanum = true := by
      rw [isAlphanum_iff]
      omega
    rw [hup, hlo]
  · rfl

theorem filter_isAlphanum_map_toUpper (l : List Char) :
    (l.map Char.toUpper).filter Char.isAlphanum =
      (l.filter Char.isAlphanum).map Char.toUpper := by
  induction l with
  | nil => rfl
  | cons c cs ih =>
    simp only [List.map_cons, List.filter_cons, isAlphanum_toUpper]
    by_cases h : c.isAlphanum
    · simp [h, ih]
    · simp [h, ih]

/-- C5: the symbol validator rejects (raises, surfaced as HTTP 400) an empty
input or one longer than 10 characters before cleaning; otherwise it strips
all non-alphanumeric characters, uppercases the remainder and returns that
result, rejecting when the cleaned result is empty.  (The model is a pure
function, matching the claim's "no side effects"; the final conjunct shows a
validation error surfacing as the 400 response of an endpoint.) -/
theorem C5_validate_symbol_contract (symbol : String) :
    (symbol = "" → validate_symbol symbol = .error "Invalid symbol length") ∧
    (10 < symbol.length → validate_symbol symbol = .error "Invalid symbol length") ∧
    (symbol ≠ "" → symbol.length ≤ 10 →
      validate_symbol symbol =
        (if ((symbol.toList.filter Char.isAlphanum).map Char.toUpper).isEmpty then
          .error "Invalid symbol format"
        else .ok (String.mk ((symbol.toList.filter Char.isAlphanum).map Char.toUpper)))) ∧
    (∀ msg now newsKey openaiKey newsTry completion,
      validate_symbol symbol = .error msg →
      get_news_insights symbol now newsKey openaiKey newsTry completion = .badRequest msg) := by
  have hlen0 : symbol = "" ↔ symbol.length = 0 := by
    constructor
    · rintro rfl; rfl
    · intro h
      cases symbol with
      | mk data =>
        cases data with
        | nil => rfl
        | cons c cs => simp [String.length] at h
  have hcomm : (strUpper symbol).toList.filter Char.isAlphanum =
      (symbol.toList.filter Char.isAlphanum).map Char.toUpper := by
    have : (strUpper symbol).toList = symbol.toList.map Char.toUpper := rfl
    rw [this, filter_isAlphanum_map_toUpper]
  refine ⟨?_, ?_, ?_, ?_⟩
  · intro h
    unfold validate_symbol
    rw [if_pos (Or.inl (hlen0.mp h))]
  · intro h
    unfold validate_symbol
    rw [if_pos (Or.inr h)]
  · intro hne hle
    unfold validate_symbol
    rw [if_neg (by
      rintro (h | h)
      · exact hne (hlen0.mpr h)
      · omega)]
    simp only [hcomm]
    have hlen : (String.mk ((symbol.toList.filter Char.isAlphanum).map Char.toUpper)).length =
        ((symbol.toList.filter Char.isAlphanum).map Char.toUpper).length := rfl
    by_cases hempty : ((symbol.toList.filter Char.isAlphanum).map Char.toUpper).isEmpty
    · rw [if_pos hempty, if_pos]
      rw [hlen]
      exact List.length_eq_zero.mpr (List.isEmpty_iff.mp hempty)
    · rw [if_neg hempty, if_neg]
      intro hc
      rw [hlen] at hc
      exact hempty (List.isEmpty_iff.mpr (List.length_eq_zero.mp hc))
  · intro msg now newsKey openaiKey newsTry completion hval
    unfold get_news_insights
    rw [hval]

/-- Witness for C5 at concrete inputs. -/
theorem C5_validate_symbol_contract_witness :
    validate_symbol "" = .error "Invalid symbol length" ∧
    validate_symbol "abcdefghijk" = .error "Invalid symbol length" ∧
    validate_symbol "aapl.x" = .ok "AAPLX" ∧
    validate_symbol "--!" = .error "Invalid symbol format" := by
  refine ⟨?_, ?_, ?_, ?_⟩
  · exact (C5_validate_symbol_contract "").1 rfl
  · exact (C5_validate_symbol_contract "abcdefghijk").2.1 (by decide)
  · exact ((C5_validate_symbol_contract "aapl.x").2.2.1 (by decide) (by decide)).trans (by decide)
  · exact ((C5_validate_symbol_contract "--!").2.2.1 (by decide) (by decide)).trans (by decide)

/-- C7: every `NewsAnalysis` produced by `analyze_news_with_openai`
(including the degraded fallback built when the completion response is
malformed) has `sentiment_score` within [-1, 1] and `sentiment` in
{bullish, bearish, neutral}; an out-of-range score is clamped into the
interval and an unrecognized sentiment value is reset to neutral with
score 0. -/
theorem C7_analysis_bounds (articles : List NewsArticle) (symbol : String)
    (keyPresent : Bool) (out : CompletionOutcome) (res : NewsAnalysis)
    (h : analyze_news_with_openai articles symbol keyPresent out = .ok res) :
    (-1 ≤ res.sentiment_score ∧ res.sentiment_score ≤ 1) ∧
    (res.sentiment = "bullish" ∨ res.sentiment = "bearish" ∨ res.sentiment = "neutral") ∧
    (∀ p, out = .parsed p → articles ≠ [] →
      (((p.sentiment = "bullish" ∨ p.sentiment = "bearish" ∨ p.sentiment = "neutral") →
        (∀ q, p.sentiment_score = some q → 1 < q → res.sentiment_score = 1) ∧
        (∀ q, p.sentiment_score = some q → q < -1 → res.sentiment_score = -1)) ∧
      (¬(p.sentiment = "bullish" ∨ p.sentiment = "bearish" ∨ p.sentiment = "neutral") →
        res.sentiment = "neutral" ∧ res.sentiment_score = 0))) := by
  unfold analyze_news_with_openai at h
  split at h
  · exact absurd h (by simp)
  · rename_i hkey
    split at h
    · rename_i hempty
      injection h with h
      subst h
      refine ⟨by norm_num, by simp, ?_⟩
      intro p hp hne
      exact absurd (List.isEmpty_iff.mp (by simpa using hempty)) hne
    · rename_i hempty
      match hout : out with
      | .missingField name =>
        exact absurd h (by simp)
      | .jsonFail =>
        simp only [] at h
        injection h with h
        subst h
        refine ⟨by norm_num, by simp, ?_⟩
        intro p hp
        exact absurd hp (by simp)
      | .parsed p =>
        simp only [] at h
        injection h with h
        subst h
        by_cases hvalid : p.sentiment = "bullish" ∨ p.sentiment = "bearish" ∨
            p.sentiment = "neutral"
        · refine ⟨?_, ?_, ?_⟩
          · simp only [if_pos hvalid]
            constructor
            · exact le_max_left _ _
            · exact max_le (by norm_num) (min_le_left _ _)
          · simp only [if_pos hvalid]
            exact hvalid
          · intro p' hp' hne
            injection hp' with hp'
            subst hp'
            refine ⟨?_, ?_⟩
            · intro _
              constructor
              · intro q hq hgt
                simp only [if_pos hvalid, hq]
                rw [min_eq_left (by linarith), max_eq_right (by norm_num)]
              · intro q hq hlt
                simp only [if_pos hvalid, hq]
                rw [min_eq_right (by linarith), max_eq_left (by linarith)]
            · intro hc
              exact absurd hvalid hc
        · refine ⟨?_, ?_, ?_⟩
          · simp only [if_neg hvalid]
            norm_num
          · simp only [if_neg hvalid]
            simp
          · intro p' hp' hne
            injection hp' with hp'
            subst hp'
            refine ⟨fun hc => absurd hc hvalid, fun _ => ?_⟩
            simp [if_neg hvalid]

/-- Witness for C7: a completion reply with score 7.5 and sentiment
"bullish" is clamped to 1; one with sentiment "sideways" resets to
neutral/0. -/
theorem C7_analysis_bounds_witness :
    (∀ res, analyze_news_with_openai (mock_symbol_news "AAPL") "AAPL" true
        (.parsed ⟨"s", "bullish", some (15 / 2), [], "r"⟩) = .ok res →
      res.sentiment_score = 1) ∧
    (∀ res, analyze_news_with_openai (mock_symbol_news "AAPL") "AAPL" true
        (.parsed ⟨"s", "sideways", some (15 / 2), [], "r"⟩) = .ok res →
      res.sentiment = "neutral" ∧ res.sentiment_score = 0) := by
  constructor
  · intro res h
    have hc := C7_analysis_bounds (mock_symbol_news "AAPL") "AAPL" true
      (.parsed ⟨"s", "bullish", some (15 / 2), [], "r"⟩) res h
    exact ((hc.2.2 _ rfl (by decide)).1 (by simp)).1 (15 / 2) rfl (by norm_num)
  · intro res h
    have hc := C7_analysis_bounds (mock_symbol_news "AAPL") "AAPL" true
      (.parsed ⟨"s", "sideways", some (15 / 2), [], "r"⟩) res h
    exact (hc.2.2 _ rfl (by decide)).2 (by simp)

/-- C1: for every provider failure whose error message matches a recognized
quota/rate-limit signature ('rate limit' / 'api limit' / 'frequency' /
'api call' for the quote and history clients; 'rate limit' / 'rateLimited'
for the news client), the fetch function returns synthetic mock data instead
of raising, so the caller never receives an error for a rate-limited call. -/
theorem C1_rate_limit_fallback (symbol msg : String) :
    (∀ (resp : AVResp QuoteFields) overview mockRand,
      (∀ q, resp ≠ .payload q) →
      av_rate_limit_signature (av_stock_fail_msg symbol resp) = true →
      fetch_alpha_vantage_stock symbol true resp overview mockRand =
        .ok (get_mock_stock_data symbol mockRand)) ∧
    (∀ period (resp : AVResp (List RawBar)) cache now nowEst sRand rand,
      (∀ bars, resp ≠ .payload bars) →
      cacheLookup cache (symbol ++ "_" ++ period) = none →
      av_rate_limit_signature (av_hist_fail_msg symbol period resp) = true →
      (fetch_alpha_vantage_history symbol period true cache now nowEst resp sRand
          rand).result =
        .ok (generate_mock_historical_data symbol period now sRand rand)) ∧
    (news_rate_limit_signature msg = true →
      fetch_news_for_symbol symbol true (.error msg) = .ok (mock_symbol_news symbol)) := by
  refine ⟨?_, ?_, ?_⟩
  · intro resp overview mockRand hnp hsig
    unfold fetch_alpha_vantage_stock
    cases resp with
    | payload q => exact absurd rfl (hnp q)
    | errorMessage s => simp [hsig]
    | note => simp [hsig]
    | information => simp [hsig]
    | invalid => simp [hsig]
    | netFail m => simp [hsig]
  · intro period resp cache now nowEst sRand rand hnp hmiss hsig
    unfold fetch_alpha_vantage_history
    simp only [Bool.not_true, hmiss]
    unfold historyNetwork
    cases resp with
    | payload bars => exact absurd rfl (hnp bars)
    | errorMessage s => simp [historyExceptHandler, hsig]
    | note => simp [historyExceptHandler, hsig]
    | information => simp [historyExceptHandler, hsig]
    | invalid => simp [historyExceptHandler, hsig]
    | netFail m => simp [historyExceptHandler, hsig]
  · intro hsig
    unfold fetch_news_for_symbol
    simp [hsig]

/-- Witness for C1: a `"Note"` body (the provider's quota notice) and an
explicit "rate limit" message. -/
theorem C1_rate_limit_fallback_witness :
    fetch_alpha_vantage_stock "AAPL" true .note none ⟨0, 0, 0, 0, 0, 0⟩ =
      .ok (get_mock_stock_data "AAPL" ⟨0, 0, 0, 0, 0, 0⟩) ∧
    (fetch_alpha_vantage_history "AAPL" "1y" true [] ⟨2026, 10, 12, 15, 0⟩
        ⟨2026, 10, 12, 10, 0⟩ .note ⟨0, 0, 0, 0, 0, 0⟩ (fun _ => ⟨0, 0, 0, 0, 0⟩)).result =
      .ok (generate_mock_historical_data "AAPL" "1y" ⟨2026, 10, 12, 15, 0⟩
        ⟨0, 0, 0, 0, 0, 0⟩ (fun _ => ⟨0, 0, 0, 0, 0⟩)) ∧
    fetch_news_for_symbol "AAPL" true (.error "NewsAPI rate limit exceeded") =
      .ok (mock_symbol_news "AAPL") := by
  refine ⟨?_, ?_, ?_⟩
  · exact (C1_rate_limit_fallback "AAPL" "").1 .note none ⟨0, 0, 0, 0, 0, 0⟩
      (by intro q; simp) (by decide)
  · exact (C1_rate_limit_fallback "AAPL" "").2.1 "1y" .note [] ⟨2026, 10, 12, 15, 0⟩
      ⟨2026, 10, 12, 10, 0⟩ ⟨0, 0, 0, 0, 0, 0⟩ (fun _ => ⟨0, 0, 0, 0, 0⟩)
      (by intro bars; simp) rfl (by decide)
  · exact (C1_rate_limit_fallback "AAPL" "NewsAPI rate limit exceeded").2.2 (by decide)

/-- C2 as stated is false: with `ALPHA_VANTAGE_API_KEY` absent the stock
endpoint returns an HTTP 400 error response, not mock data (the missing-key
raise happens before the `try`, so no fallback sees it). -/
theorem C2_missing_key_counterexample :
    (get_stock_data "AAPL" "1.2.3.4" [] 0 false
        (.payload ⟨some "AAPL", 1, 0, 0, 0, 1, 1⟩) none ⟨0, 0, 0, 0, 0, 0⟩).1 =
      .badRequest "Unable to fetch stock data" ∧
    (∀ d, (get_stock_data "AAPL" "1.2.3.4" [] 0 false
        (.payload ⟨some "AAPL", 1, 0, 0, 0, 1, 1⟩) none ⟨0, 0, 0, 0, 0, 0⟩).1 ≠
      .okData d) := by
  refine ⟨by decide, ?_⟩
  intro d h
  rw [show (get_stock_data "AAPL" "1.2.3.4" [] 0 false
      (.payload ⟨some "AAPL", 1, 0, 0, 0, 1, 1⟩) none ⟨0, 0, 0, 0, 0, 0⟩).1 =
        .badRequest "Unable to fetch stock data" from by decide] at h
  exact StockResponse.noConfusion h

/-- C2 amended: absence of the news API key routes the news fetchers to mock
data (and the market-insights endpoint still returns a payload), but absence
of the Alpha Vantage key makes the stock and history endpoints return an
HTTP 400 error response, and absence of the OpenAI key makes the per-symbol
news endpoint return HTTP 400. -/
theorem C2_missing_key_routing :
    (∀ symbol tryOutcome,
      fetch_news_for_symbol symbol false tryOutcome = .ok (mock_symbol_news symbol)) ∧
    (∀ now tryOutcome,
      fetch_market_news false now tryOutcome = .ok mock_market_news_dev) ∧
    (∀ symbol ip rl t resp overview mockRand,
      (check_rate_limit rl ip t 30 1).1 = true →
      (validate_symbol symbol).isOk = true →
      (get_stock_data symbol ip rl t false resp overview mockRand).1 =
        .badRequest "Unable to fetch stock data") ∧
    (∀ symbol period cache now nowEst resp sRand rand,
      (validate_symbol symbol).isOk = true →
      period ∈ ["1d", "1w", "3m", "1y"] →
      (get_stock_history symbol period false cache now nowEst resp sRand rand).1 =
        .badRequest "Unable to fetch historical data") ∧
    (∀ symbol now newsKey newsTry completion,
      (validate_symbol symbol).isOk = true →
      get_news_insights symbol now newsKey false newsTry completion =
        .badRequest "Unable to fetch news insights") ∧
    (∀ d now tryOut aiOut, 1 ≤ d → d ≤ 7 →
      ∃ a, get_market_insights d now (fetch_market_news false now tryOut) aiOut =
        .payload a (mock_market_news_dev.take 10) (isoformat now) d true) := by
  refine ⟨?_, ?_, ?_, ?_, ?_, ?_⟩
  · intro symbol tryOutcome
    unfold fetch_news_for_symbol
    simp
  · intro now tryOutcome
    unfold fetch_market_news
    simp
  · intro symbol ip rl t resp overview mockRand hrl hval
    unfold get_stock_data
    simp only [hrl, Bool.not_true, Bool.false_eq_true, if_false]
    match hv : validate_symbol symbol with
    | .error m => rw [hv] at hval; simp [Except.isOk, Except.toBool] at hval
    | .ok clean =>
      simp only []
      unfold fetch_alpha_vantage_stock
      simp
  · intro symbol period cache now nowEst resp sRand rand hval hper
    unfold get_stock_history
    match hv : validate_symbol symbol with
    | .error m => rw [hv] at hval; simp [Except.isOk, Except.toBool] at hval
    | .ok clean =>
      simp only []
      rw [if_neg (not_not_intro hper)]
      unfold fetch_alpha_vantage_history
      simp
  · intro symbol now newsKey newsTry completion hval
    unfold get_news_insights
    match hv : validate_symbol symbol with
    | .error m => rw [hv] at hval; simp [Except.isOk, Except.toBool] at hval
    | .ok clean =>
      simp only []
      match hf : fetch_news_for_symbol clean newsKey newsTry with
      | .error m => simp only []
      | .ok articles =>
        simp only []
        unfold analyze_news_with_openai
        simp
  · intro d now tryOut aiOut h1 h7
    have hm : fetch_market_news false now tryOut = .ok mock_market_news_dev := by
      unfold fetch_market_news
      simp
    rw [hm]
    unfold get_market_insights
    rw [if_neg (by omega)]
    simp only []
    refine ⟨_, rfl⟩

/-- Witness for C2 (amended) at concrete inputs. -/
theorem C2_missing_key_routing_witness :
    fetch_news_for_symbol "AAPL" false (.error "boom") = .ok (mock_symbol_news "AAPL") ∧
    (get_stock_data "AAPL" "ip" [] 0 false .invalid none ⟨0, 0, 0, 0, 0, 0⟩).1 =
      .badRequest "Unable to fetch stock data" ∧
    (get_stock_history "AAPL" "1y" false [] ⟨2026, 10, 12, 15, 0⟩ ⟨2026, 10, 12, 10, 0⟩
        .invalid ⟨0, 0, 0, 0, 0, 0⟩ (fun _ => ⟨0, 0, 0, 0, 0⟩)).1 =
      .badRequest "Unable to fetch historical data" ∧
    get_news_insights "AAPL" ⟨2026, 10, 12, 15, 0⟩ false false (.error "boom")
        .jsonFail = .badRequest "Unable to fetch news insights" := by
  refine ⟨?_, ?_, ?_, ?_⟩
  · exact C2_missing_key_routing.1 "AAPL" (.error "boom")
  · exact C2_missing_key_routing.2.2.1 "AAPL" "ip" [] 0 .invalid none ⟨0, 0, 0, 0, 0, 0⟩
      (by decide) (by decide)
  · exact C2_missing_key_routing.2.2.2.1 "AAPL" "1y" [] ⟨2026, 10, 12, 15, 0⟩
      ⟨2026, 10, 12, 10, 0⟩ .invalid ⟨0, 0, 0, 0, 0, 0⟩ (fun _ => ⟨0, 0, 0, 0, 0⟩)
      (by decide) (by decide)
  · exact C2_missing_key_routing.2.2.2.2.1 "AAPL" ⟨2026, 10, 12, 15, 0⟩ false
      (.error "boom") .jsonFail (by decide)

/-- C10: for every `days_back` between 1 and 7 the market-insights endpoint
never returns an error response — a news-fetch failure reaches the outer
handler and yields the fully hardcoded mock payload (`is_mock_data = true`,
`article_count` the literal 10, five mock articles), and an analysis failure
is absorbed by the inner fallback while still returning a complete payload. -/
theorem C10_insights_never_error (d : ℤ) (now : DT)
    (newsOut : Except String (List MarketArticle))
    (aiOut : Except String MarketAnalysis)
    (h1 : 1 ≤ d) (h7 : d ≤ 7) :
    (∀ msg, get_market_insights d now newsOut aiOut ≠ .badRequest msg) ∧
    (∀ msg, newsOut = .error msg →
      get_market_insights d now newsOut aiOut =
        .payload (insights_final_fallback_analysis now)
          (insights_final_fallback_articles now) (isoformat now) d true ∧
      (insights_final_fallback_analysis now).article_count = 10 ∧
      (insights_final_fallback_articles now).length = 5) ∧
    (∀ articles msg, newsOut = .ok articles → aiOut = .error msg →
      get_market_insights d now newsOut aiOut =
        .payload (insights_inner_fallback articles now) (articles.take 10) (isoformat now) d
          (match articles with
            | [] => false
            | a :: _ => strContains a.url "example.com")) := by
  have hrange : ¬(d < 1 ∨ 7 < d) := by omega
  refine ⟨?_, ?_, ?_⟩
  · intro msg h
    unfold get_market_insights at h
    rw [if_neg hrange] at h
    cases newsOut with
    | ok articles => simp at h
    | error m => simp at h
  · intro msg hn
    subst hn
    refine ⟨?_, rfl, rfl⟩
    unfold get_market_insights
    rw [if_neg hrange]
  · intro articles msg hn ha
    subst hn
    subst ha
    unfold get_market_insights
    rw [if_neg hrange]

/-- Witness for C10 with both the news fetch and the analysis failing. -/
theorem C10_insights_never_error_witness :
    get_market_insights 3 ⟨2026, 10, 12, 15, 0⟩ (.error "connection refused")
        (.error "OpenAI market analysis error: boom") =
      .payload (insights_final_fallback_analysis ⟨2026, 10, 12, 15, 0⟩)
        (insights_final_fallback_articles ⟨2026, 10, 12, 15, 0⟩)
        (isoformat ⟨2026, 10, 12, 15, 0⟩) 3 true ∧
    (insights_final_fallback_analysis ⟨2026, 10, 12, 15, 0⟩).article_count = 10 ∧
    (insights_final_fallback_articles ⟨2026, 10, 12, 15, 0⟩).length = 5 := by
  exact (C10_insights_never_error 3 ⟨2026, 10, 12, 15, 0⟩ (.error "connection refused")
    (.error "OpenAI market analysis error: boom") (by norm_num) (by norm_num)).2.1
    "connection refused" rfl

/-! ## Rate-limiter lemmas -/

theorem rlLookup_update (st : RLState) (ip : String) (l : List ℚ) :
    rlLookup (rlUpdate st ip l) ip = l := by
  induction st with
  | nil => simp [rlUpdate, rlLookup]
  | cons kv rest ih =>
    obtain ⟨k, v⟩ := kv
    unfold rlUpdate
    by_cases hk : k = ip
    · simp [hk, rlLookup]
    · simp [hk, rlLookup, ih]

theorem check_rate_limit_admit_iff (st : RLState) (ip : String) (t : ℚ) (N : ℕ) (w : ℚ) :
    (check_rate_limit st ip t N w).1 = true ↔
      ((rlLookup st ip).filter (fun r => t - r < w * 60)).length < N := by
  unfold check_rate_limit
  simp only []
  split
  · rename_i h
    simp
    omega
  · rename_i h
    simp
    omega

theorem check_rate_limit_state_denied (st : RLState) (ip : String) (t : ℚ) (N : ℕ) (w : ℚ)
    (h : (check_rate_limit st ip t N w).1 = false) :
    rlLookup (check_rate_limit st ip t N w).2 ip =
      (rlLookup st ip).filter (fun r => t - r < w * 60) := by
  unfold check_rate_limit at h ⊢
  try simp only [] at h
  try simp only []
  split at h
  · rename_i hc
    rw [if_pos hc, rlLookup_update]
  · simp at h

theorem check_rate_limit_state_admitted (st : RLState) (ip : String) (t : ℚ) (N : ℕ) (w : ℚ)
    (h : (check_rate_limit st ip t N w).1 = true) :
    rlLookup (check_rate_limit st ip t N w).2 ip =
      (rlLookup st ip).filter (fun r => t - r < w * 60) ++ [t] := by
  unfold check_rate_limit at h ⊢
  try simp only [] at h
  try simp only []
  split at h
  · simp at h
  · rename_i hc
    rw [if_neg hc, rlLookup_update]

theorem runChecks_all_admit (ip : String) (N : ℕ) (w : ℚ) :
    ∀ (ts : List ℚ) (st : RLState) (l : List ℚ),
      rlLookup st ip = l →
      l.length + ts.length ≤ N →
      (∀ x ∈ l ++ ts, ∀ u ∈ ts, u - x < w * 60) →
      (runChecks ip N w ts st).1 = List.replicate ts.length true ∧
      rlLookup (runChecks ip N w ts st).2 ip = l ++ ts := by
  intro ts
  induction ts with
  | nil =>
    intro st l hcur hlen hspan
    simp [runChecks, hcur]
  | cons t ts' ih =>
    intro st l hcur hlen hspan
    have hfilter : l.filter (fun r => t - r < w * 60) = l := by
      rw [List.filter_eq_self]
      intro x hx
      simp only [decide_eq_true_eq]
      exact hspan x (List.mem_append_left _ hx) t (List.mem_cons_self _ _)
    have hstep : check_rate_limit st ip t N w = (true, rlUpdate st ip (l ++ [t])) := by
      unfold check_rate_limit
      simp only []
      rw [hcur, hfilter]
      rw [if_neg (by simp at hlen ⊢; omega)]
    have hrec := ih (rlUpdate st ip (l ++ [t])) (l ++ [t]) (rlLookup_update _ _ _)
      (by simp at hlen ⊢; omega)
      (by
        intro x hx u hu
        refine hspan x ?_ u (List.mem_cons_of_mem _ hu)
        rcases List.mem_append.mp hx with hx1 | hx2
        · rcases List.mem_append.mp hx1 with hx3 | hx4
          · exact List.mem_append_left _ hx3
          · simp at hx4
            subst hx4
            exact List.mem_append_right _ (List.mem_cons_self _ _)
        · exact List.mem_append_right _ (List.mem_cons_of_mem _ hx2))
    constructor
    · show (runChecks ip N w (t :: ts') st).1 = true :: List.replicate ts'.length true
      unfold runChecks
      rw [hstep]
      simp only []
      rw [hrec.1]
    · show rlLookup (runChecks ip N w (t :: ts') st).2 ip = l ++ t :: ts'
      unfold runChecks
      rw [hstep]
      simp only []
      rw [hrec.2]
      simp

theorem runChecks_cons (ip : String) (N : ℕ) (w : ℚ) (t : ℚ) (ts : List ℚ) (st : RLState) :
    runChecks ip N w (t :: ts) st =
      ((check_rate_limit st ip t N w).1 ::
          (runChecks ip N w ts (check_rate_limit st ip t N w).2).1,
        (runChecks ip N w ts (check_rate_limit st ip t N w).2).2) := rfl

theorem runChecks_append (ip : String) (N : ℕ) (w : ℚ) (ts1 ts2 : List ℚ) (st : RLState) :
    runChecks ip N w (ts1 ++ ts2) st =
      ((runChecks ip N w ts1 st).1 ++ (runChecks ip N w ts2 (runChecks ip N w ts1 st).2).1,
        (runChecks ip N w ts2 (runChecks ip N w ts1 st).2).2) := by
  induction ts1 generalizing st with
  | nil => simp [runChecks]
  | cons t ts ih =>
    rw [List.cons_append, runChecks_cons, runChecks_cons, ih]
    simp

/-- C6: for a ceiling of N per window from one IP, the first N requests
within the window are admitted, the (N+1)th is rejected (and the stock
endpoint maps a rejection to the 429 response), and once the window has
elapsed a request is admitted again; on each check stale timestamps are
discarded before the count is compared to the ceiling, and the new timestamp
is recorded only on admission. -/
theorem C6_rate_limit_window (ip : String) (N : ℕ) (w : ℚ) (ts : List ℚ)
    (hN : 1 ≤ N) (_hw : 0 < w)
    (hlen : ts.length = N + 1)
    (hspan : ∀ x ∈ ts, ∀ u ∈ ts, u - x < w * 60) :
    (runChecks ip N w ts []).1 = List.replicate N true ++ [false] ∧
    (∀ T, (∀ x ∈ ts, w * 60 ≤ T - x) →
      (check_rate_limit (runChecks ip N w ts []).2 ip T N w).1 = true) ∧
    (∀ st t, (check_rate_limit st ip t N w).1 = true ↔
      ((rlLookup st ip).filter (fun r => t - r < w * 60)).length < N) ∧
    (∀ st t, (check_rate_limit st ip t N w).1 = true →
      rlLookup (check_rate_limit st ip t N w).2 ip =
        (rlLookup st ip).filter (fun r => t - r < w * 60) ++ [t]) ∧
    (∀ st t, (check_rate_limit st ip t N w).1 = false →
      rlLookup (check_rate_limit st ip t N w).2 ip =
        (rlLookup st ip).filter (fun r => t - r < w * 60)) ∧
    (∀ symbol rl t keyPresent resp overview mockRand,
      (check_rate_limit rl ip t 30 1).1 = false →
      (get_stock_data symbol ip rl t keyPresent resp overview mockRand).1 =
        .rateLimited "Rate limit exceeded. Please try again later.") := by
  have htake : ts.take N ++ ts.drop N = ts := List.take_append_drop N ts
  obtain ⟨tl, hdrop⟩ : ∃ tl, ts.drop N = [tl] := by
    have h1 : (ts.drop N).length = 1 := by
      rw [List.length_drop, hlen]
      omega
    match hd : ts.drop N with
    | [] => rw [hd] at h1; simp at h1
    | [x] => exact ⟨x, rfl⟩
    | x :: y :: r => rw [hd] at h1; simp at h1
  have htakelen : (ts.take N).length = N := by
    rw [List.length_take, hlen]
    omega
  have htakesub : ∀ x ∈ ts.take N, x ∈ ts := fun x hx => List.take_subset N ts hx
  have htlmem : tl ∈ ts := by
    have : tl ∈ ts.drop N := by rw [hdrop]; exact List.mem_singleton_self tl
    exact List.drop_subset N ts this
  have hfirst := runChecks_all_admit ip N w (ts.take N) [] [] rfl
    (by simp [htakelen]) (by
      intro x hx u hu
      simp only [List.nil_append] at hx
      exact hspan x (htakesub x hx) u (htakesub u hu))
  set st1 := (runChecks ip N w (ts.take N) []).2 with hst1
  have hfull : ts.filter (fun r => decide (tl - r < w * 60)) = ts := by
    rw [List.filter_eq_self]
    intro x hx
    simp only [decide_eq_true_eq]
    exact hspan x hx tl htlmem
  have hprune1 : (ts.take N).filter (fun r => tl - r < w * 60) = ts.take N := by
    rw [List.filter_eq_self]
    intro x hx
    simp only [decide_eq_true_eq]
    exact hspan x (htakesub x hx) tl htlmem
  have hdeny : (check_rate_limit st1 ip tl N w).1 = false := by
    by_contra hc
    have hc' : (check_rate_limit st1 ip tl N w).1 = true := by
      cases hb : (check_rate_limit st1 ip tl N w).1
      · exact absurd hb hc
      · rfl
    have := (check_rate_limit_admit_iff st1 ip tl N w).mp hc'
    rw [hfirst.2, List.nil_append, hprune1, htakelen] at this
    omega
  have hdecisions : (runChecks ip N w ts []).1 = List.replicate N true ++ [false] := by
    conv_lhs => rw [← htake, hdrop]
    rw [runChecks_append]
    rw [hfirst.1, htakelen]
    rw [runChecks_cons, ← hst1]
    simp only [runChecks]
    rw [hdeny]
  have hstate2 : rlLookup (runChecks ip N w ts []).2 ip = ts.take N := by
    conv_lhs => rw [← htake, hdrop]
    rw [runChecks_append]
    simp only [runChecks_cons, ← hst1, runChecks]
    rw [check_rate_limit_state_denied st1 ip tl N w hdeny, hfirst.2, List.nil_append, hprune1]
  refine ⟨hdecisions, ?_, fun st t => check_rate_limit_admit_iff st ip t N w,
    fun st t => check_rate_limit_state_admitted st ip t N w,
    fun st t => check_rate_limit_state_denied st ip t N w, ?_⟩
  · intro T hT
    rw [check_rate_limit_admit_iff, hstate2]
    have hnil : (ts.take N).filter (fun r => T - r < w * 60) = [] := by
      rw [List.filter_eq_nil_iff]
      intro x hx
      simp only [decide_eq_true_eq]
      have := hT x (htakesub x hx)
      intro hc
      linarith
    rw [hnil]
    simpa using hN
  · intro symbol rl t keyPresent resp overview mockRand hrl
    unfold get_stock_data
    simp only [hrl, Bool.not_false]
    simp

/-- Witness for C6: ceiling 2, window 1 minute, three requests within the
window, a fourth after it has elapsed, and a concrete 429 mapping. -/
theorem C6_rate_limit_window_witness :
    (runChecks "ip" 2 1 [0, 10, 20] []).1 = [true, true, false] ∧
    (check_rate_limit (runChecks "ip" 2 1 [0, 10, 20] []).2 "ip" 100 2 1).1 = true ∧
    (get_stock_data "AAPL" "ip" [("ip", List.replicate 30 (0 : ℚ))] 0 true .invalid none
        ⟨0, 0, 0, 0, 0, 0⟩).1 =
      .rateLimited "Rate limit exceeded. Please try again later." := by
  have h := C6_rate_limit_window "ip" 2 1 [0, 10, 20] (by norm_num) (by norm_num)
    (by simp)
    (by intro x hx u hu; fin_cases hx <;> fin_cases hu <;> norm_num)
  have hdenied : (check_rate_limit [("ip", List.replicate 30 (0 : ℚ))] "ip" 0 30 1).1 =
      false := by
    unfold check_rate_limit
    simp only [rlLookup, if_pos rfl]
    rw [List.filter_eq_self.mpr (by
      intro a ha
      rw [List.eq_of_mem_replicate ha]
      norm_num)]
    simp
  refine ⟨h.1.trans (by decide), h.2.1 100 ?_, ?_⟩
  · intro x hx
    fin_cases hx <;> norm_num
  · exact h.2.2.2.2.2 "AAPL" [("ip", List.replicate 30 (0 : ℚ))] 0 true .invalid none
      ⟨0, 0, 0, 0, 0, 0⟩ hdenied

/-- C9: after every rate-limit check, the stored list for the checked IP
contains only timestamps within the trailing window and its length never
exceeds the ceiling (both from a bounded state and along any run from the
empty initial state); a denied request records no timestamp. -/
theorem C9_rate_limit_invariant (ip : String) (N : ℕ) (w : ℚ) (hw : 0 < w) :
    (∀ st t, ∀ x ∈ rlLookup (check_rate_limit st ip t N w).2 ip, t - x < w * 60) ∧
    (∀ st t, (rlLookup st ip).length ≤ N →
      (rlLookup (check_rate_limit st ip t N w).2 ip).length ≤ N) ∧
    (∀ ts, (rlLookup (runChecks ip N w ts []).2 ip).length ≤ N) ∧
    (∀ st t, (check_rate_limit st ip t N w).1 = false →
      rlLookup (check_rate_limit st ip t N w).2 ip =
        (rlLookup st ip).filter (fun r => t - r < w * 60)) := by
  have hw60 : 0 < w * 60 := by linarith
  have hmemwin : ∀ st t, ∀ x ∈ rlLookup (check_rate_limit st ip t N w).2 ip,
      t - x < w * 60 := by
    intro st t x hx
    cases hb : (check_rate_limit st ip t N w).1
    · rw [check_rate_limit_state_denied st ip t N w hb] at hx
      have := List.of_mem_filter hx
      simpa using this
    · rw [check_rate_limit_state_admitted st ip t N w hb] at hx
      rcases List.mem_append.mp hx with hx1 | hx2
      · have := List.of_mem_filter hx1
        simpa using this
      · simp at hx2
        subst hx2
        simpa using hw60
  have hlenstep : ∀ st t, (rlLookup st ip).length ≤ N →
      (rlLookup (check_rate_limit st ip t N w).2 ip).length ≤ N := by
    intro st t hle
    cases hb : (check_rate_limit st ip t N w).1
    · rw [check_rate_limit_state_denied st ip t N w hb]
      exact le_trans (List.length_filter_le _ _) hle
    · rw [check_rate_limit_state_admitted st ip t N w hb]
      have := (check_rate_limit_admit_iff st ip t N w).mp hb
      simp only [List.length_append, List.length_singleton]
      omega
  refine ⟨hmemwin, hlenstep, ?_, fun st t => check_rate_limit_state_denied st ip t N w⟩
  have haux : ∀ ts st, (rlLookup st ip).length ≤ N →
      (rlLookup (runChecks ip N w ts st).2 ip).length ≤ N := by
    intro ts
    induction ts with
    | nil => intro st h; simpa [runChecks] using h
    | cons t ts' ih =>
      intro st h
      rw [runChecks_cons]
      exact ih _ (hlenstep st t h)
  intro ts
  exact haux ts [] (by simp [rlLookup])

/-- Witness for C9 at a concrete state and time. -/
theorem C9_rate_limit_invariant_witness :
    (∀ x ∈ rlLookup (check_rate_limit [("ip", [0, 100])] "ip" 120 2 1).2 "ip",
      (120 : ℚ) - x < 1 * 60) ∧
    (rlLookup (check_rate_limit [("ip", [0, 100])] "ip" 120 2 1).2 "ip").length ≤ 2 ∧
    (rlLookup (runChecks "ip" 2 1 [0, 10, 20, 100] []).2 "ip").length ≤ 2 := by
  have h := C9_rate_limit_invariant "ip" 2 1 (by norm_num)
  exact ⟨h.1 [("ip", [0, 100])] 120, h.2.1 [("ip", [0, 100])] 120 (by simp [rlLookup]),
    h.2.2.1 [0, 10, 20, 100]⟩

/-! ## Mock-series shape lemmas -/

theorem mockWalk_length (period : String) (rand : ℕ → StepRand) :
    ∀ (i : ℕ) (price : ℚ) (ds : List DT),
      (mockWalk period rand i price ds).length = ds.length := by
  intro i price ds
  induction ds generalizing i price with
  | nil => rfl
  | cons d ds' ih =>
    unfold mockWalk
    simp only [List.length_cons]
    rw [ih]

theorem mockIntervals_1y_length (now : DT) : (mockIntervals "1y" now).length = 53 := by
  unfold mockIntervals
  rw [if_neg (by decide), if_neg (by decide), if_neg (by decide)]
  simp

theorem generate_mock_1y_length (symbol : String) (now : DT) (sRand : StockRand)
    (rand : ℕ → StepRand) :
    (generate_mock_historical_data symbol "1y" now sRand rand).data.length = 53 := by
  unfold generate_mock_historical_data
  simp only []
  rw [mockWalk_length, mockIntervals_1y_length]

/-- C8 as stated is false: a history request against an *unreachable*
provider raises a connection error whose message matches none of the quota
signatures, so the code re-raises and the endpoint returns HTTP 400 — not a
mock payload. -/
theorem C8_unreachable_counterexample :
    (fetch_alpha_vantage_history "AAPL" "1y" true [] ⟨2026, 10, 12, 15, 0⟩
        ⟨2026, 10, 12, 10, 0⟩ (.netFail "All connection attempts failed")
        ⟨0, 0, 0, 0, 0, 0⟩ (fun _ => ⟨0, 0, 0, 0, 0⟩)).result =
      .error "Alpha Vantage history API error for AAPL: Failed to fetch historical data" ∧
    (get_stock_history "AAPL" "1y" true [] ⟨2026, 10, 12, 15, 0⟩ ⟨2026, 10, 12, 10, 0⟩
        (.netFail "All connection attempts failed") ⟨0, 0, 0, 0, 0, 0⟩
        (fun _ => ⟨0, 0, 0, 0, 0⟩)).1 =
      .badRequest "Unable to fetch historical data" := by
  constructor
  · decide
  · decide

/-- C8 amended: a 1y history request whose provider failure message matches
a recognized quota/rate-limit signature returns a payload with
`is_mock_data = true` and a non-empty data array of exactly 53 weekly
intervals (the mock generator's count for 1y). -/
theorem C8_rate_limited_1y_mock (symbol : String) (now nowEst : DT) (cache : ChartCache)
    (resp : AVResp (List RawBar)) (sRand : StockRand) (rand : ℕ → StepRand)
    (hnp : ∀ bars, resp ≠ .payload bars)
    (hmiss : cacheLookup cache (symbol ++ "_" ++ "1y") = none)
    (hsig : av_rate_limit_signature (av_hist_fail_msg symbol "1y" resp) = true) :
    (fetch_alpha_vantage_history symbol "1y" true cache now nowEst resp sRand rand).result =
      .ok (generate_mock_historical_data symbol "1y" now sRand rand) ∧
    (generate_mock_historical_data symbol "1y" now sRand rand).is_mock_data = true ∧
    (generate_mock_historical_data symbol "1y" now sRand rand).data.length = 53 ∧
    (generate_mock_historical_data symbol "1y" now sRand rand).data ≠ [] ∧
    (validate_symbol symbol = .ok symbol →
      (get_stock_history symbol "1y" true cache now nowEst resp sRand rand).1 =
        .okH symbol "1y" (generate_mock_historical_data symbol "1y" now sRand rand).data 53
          (generate_mock_historical_data symbol "1y" now sRand rand).period_high
          (generate_mock_historical_data symbol "1y" now sRand rand).period_low true) := by
  have hlen := generate_mock_1y_length symbol now sRand rand
  have hfetch : (fetch_alpha_vantage_history symbol "1y" true cache now nowEst resp sRand
      rand).result = .ok (generate_mock_historical_data symbol "1y" now sRand rand) := by
    unfold fetch_alpha_vantage_history
    simp only [Bool.not_true, hmiss]
    unfold historyNetwork
    cases resp with
    | payload bars => exact absurd rfl (hnp bars)
    | errorMessage s => simp [historyExceptHandler, hsig]
    | note => simp [historyExceptHandler, hsig]
    | information => simp [historyExceptHandler, hsig]
    | invalid => simp [historyExceptHandler, hsig]
    | netFail m => simp [historyExceptHandler, hsig]
  refine ⟨hfetch, rfl, hlen, ?_, ?_⟩
  · intro hc
    rw [hc] at hlen
    simp at hlen
  · intro hval
    unfold get_stock_history
    rw [hval]
    simp only []
    rw [if_neg (not_not_intro (by decide))]
    rw [hfetch]
    simp only []
    rw [hlen]
    rfl

/-- Witness for C8 (amended) at a concrete rate-limited input. -/
theorem C8_rate_limited_1y_mock_witness :
    (fetch_alpha_vantage_history "AAPL" "1y" true [] ⟨2026, 10, 12, 15, 0⟩
        ⟨2026, 10, 12, 10, 0⟩ (.netFail "Your API rate limit has been reached")
        ⟨0, 0, 0, 0, 0, 0⟩ (fun _ => ⟨0, 0, 0, 0, 0⟩)).result =
      .ok (generate_mock_historical_data "AAPL" "1y" ⟨2026, 10, 12, 15, 0⟩
        ⟨0, 0, 0, 0, 0, 0⟩ (fun _ => ⟨0, 0, 0, 0, 0⟩)) ∧
    (generate_mock_historical_data "AAPL" "1y" ⟨2026, 10, 12, 15, 0⟩
        ⟨0, 0, 0, 0, 0, 0⟩ (fun _ => ⟨0, 0, 0, 0, 0⟩)).data.length = 53 ∧
    (get_stock_history "AAPL" "1y" true [] ⟨2026, 10, 12, 15, 0⟩ ⟨2026, 10, 12, 10, 0⟩
        (.netFail "Your API rate limit has been reached") ⟨0, 0, 0, 0, 0, 0⟩
        (fun _ => ⟨0, 0, 0, 0, 0⟩)).1 =
      .okH "AAPL" "1y"
        (generate_mock_historical_data "AAPL" "1y" ⟨2026, 10, 12, 15, 0⟩
          ⟨0, 0, 0, 0, 0, 0⟩ (fun _ => ⟨0, 0, 0, 0, 0⟩)).data 53
        (generate_mock_historical_data "AAPL" "1y" ⟨2026, 10, 12, 15, 0⟩
          ⟨0, 0, 0, 0, 0, 0⟩ (fun _ => ⟨0, 0, 0, 0, 0⟩)).period_high
        (generate_mock_historical_data "AAPL" "1y" ⟨2026, 10, 12, 15, 0⟩
          ⟨0, 0, 0, 0, 0, 0⟩ (fun _ => ⟨0, 0, 0, 0, 0⟩)).period_low true := by
  have h := C8_rate_limited_1y_mock "AAPL" ⟨2026, 10, 12, 15, 0⟩ ⟨2026, 10, 12, 10, 0⟩ []
    (.netFail "Your API rate limit has been reached") ⟨0, 0, 0, 0, 0, 0⟩
    (fun _ => ⟨0, 0, 0, 0, 0⟩) (by intro bars; simp) rfl (by decide)
  exact ⟨h.1, h.2.2.1, h.2.2.2.2 (by decide)⟩

/-! ## Cache-behavior lemmas -/

theorem cacheLookup_insert (c : ChartCache) (k : String) (v : HistoryResult × DT) :
    cacheLookup (cacheInsert c k v) k = some v := by
  induction c with
  | nil => simp [cacheInsert, cacheLookup]
  | cons kv rest ih =>
    obtain ⟨k', v'⟩ := kv
    unfold cacheInsert
    by_cases hk : k' = k
    · simp [hk, cacheLookup]
    · simp [hk, cacheLookup, ih]

theorem historyExceptHandler_networkCalled (symbol period : String) (now : DT)
    (cache : ChartCache) (sRand : StockRand) (rand : ℕ → StepRand) (msg : String) :
    (historyExceptHandler symbol period now cache sRand rand msg).networkCalled = true := by
  unfold historyExceptHandler
  split <;> rfl

theorem historyExceptHandler_ok_mock (symbol period : String) (now : DT)
    (cache : ChartCache) (sRand : StockRand) (rand : ℕ → StepRand) (msg : String)
    (h : HistoryResult)
    (hok : (historyExceptHandler symbol period now cache sRand rand msg).result = .ok h) :
    h = generate_mock_historical_data symbol period now sRand rand := by
  unfold historyExceptHandler at hok
  split at hok
  · injection hok with e
    exact e.symm
  · simp at hok

theorem historyNetwork_networkCalled (symbol period : String) (cache : ChartCache)
    (now nowEst : DT) (resp : AVResp (List RawBar)) (sRand : StockRand)
    (rand : ℕ → StepRand) (cache_key : String) :
    (historyNetwork symbol period cache now nowEst resp sRand rand
      cache_key).networkCalled = true := by
  unfold historyNetwork
  cases resp with
  | payload bars =>
    simp only []
    split
    · split
      · exact historyExceptHandler_networkCalled _ _ _ _ _ _ _
      · rfl
    · split
      · exact historyExceptHandler_networkCalled _ _ _ _ _ _ _
      · rfl
  | errorMessage s => exact historyExceptHandler_networkCalled _ _ _ _ _ _ _
  | note => exact historyExceptHandler_networkCalled _ _ _ _ _ _ _
  | information => exact historyExceptHandler_networkCalled _ _ _ _ _ _ _
  | invalid => exact historyExceptHandler_networkCalled _ _ _ _ _ _ _
  | netFail m => exact historyExceptHandler_networkCalled _ _ _ _ _ _ _

theorem historyNetwork_caches (symbol period : String) (cache : ChartCache)
    (now nowEst : DT) (resp : AVResp (List RawBar)) (sRand : StockRand)
    (rand : ℕ → StepRand) (cache_key : String) :
    ∀ h : HistoryResult,
      (historyNetwork symbol period cache now nowEst resp sRand rand
        cache_key).result = .ok h →
      h.is_mock_data = false →
      cacheLookup (historyNetwork symbol period cache now nowEst resp sRand rand
        cache_key).cache cache_key = some (h, now) := by
  have hmock : ∀ msg (h : HistoryResult),
      (historyExceptHandler symbol period now cache sRand rand msg).result = .ok h →
      h.is_mock_data = false → False := by
    intro msg h hk hnm
    have := historyExceptHandler_ok_mock _ _ _ _ _ _ _ _ hk
    rw [this] at hnm
    simp [generate_mock_historical_data] at hnm
  have hfinish : ∀ (filtered : List HistoryPoint) (h : HistoryResult),
      (finishHistory cache now cache_key filtered).result = .ok h →
      cacheLookup (finishHistory cache now cache_key filtered).cache cache_key =
        some (h, now) := by
    intro filtered h hk
    unfold finishHistory at hk ⊢
    simp only [] at hk
    injection hk with e
    rw [← e]
    exact cacheLookup_insert _ _ _
  unfold historyNetwork
  cases resp with
  | payload bars =>
    simp only []
    split
    · split
      · intro h hok hnm
        exact (hmock _ h hok hnm).elim
      · intro h hok hnm
        exact hfinish _ h hok
    · split
      · intro h hok hnm
        exact (hmock _ h hok hnm).elim
      · intro h hok hnm
        exact hfinish _ h hok
  | errorMessage s => intro h hok hnm; exact (hmock _ h hok hnm).elim
  | note => intro h hok hnm; exact (hmock _ h hok hnm).elim
  | information => intro h hok hnm; exact (hmock _ h hok hnm).elim
  | invalid => intro h hok hnm; exact (hmock _ h hok hnm).elim
  | netFail m => intro h hok hnm; exact (hmock _ h hok hnm).elim

theorem fetch_hist_stale_network (symbol period : String) (cache : ChartCache)
    (now nowEst : DT) (resp : AVResp (List RawBar)) (sRand : StockRand)
    (rand : ℕ → StepRand) (h : HistoryResult) (ct : DT)
    (hc : cacheLookup cache (symbol ++ "_" ++ period) = some (h, ct))
    (hge : 60 ≤ minutesBetween ct now) :
    (fetch_alpha_vantage_history symbol period true cache now nowEst resp sRand
      rand).networkCalled = true := by
  unfold fetch_alpha_vantage_history
  simp only [Bool.not_true, Bool.false_eq_true, if_false, hc]
  rw [if_neg (by omega : ¬ minutesBetween ct now < 60)]
  exact historyNetwork_networkCalled _ _ _ _ _ _ _ _ _

/-- C4 as stated is false: a rate-limited (mock) response is not cached, so
repeating the identical (symbol, period) request one minute later makes
another provider call instead of returning a cached payload. -/
theorem C4_cache_counterexample :
    (fetch_alpha_vantage_history "AAPL" "1y" true [] ⟨2026, 10, 12, 15, 0⟩
        ⟨2026, 10, 12, 10, 0⟩ (.netFail "rate limit") ⟨0, 0, 0, 0, 0, 0⟩
        (fun _ => ⟨0, 0, 0, 0, 0⟩)).result =
      .ok (generate_mock_historical_data "AAPL" "1y" ⟨2026, 10, 12, 15, 0⟩
        ⟨0, 0, 0, 0, 0, 0⟩ (fun _ => ⟨0, 0, 0, 0, 0⟩)) ∧
    (fetch_alpha_vantage_history "AAPL" "1y" true
        (fetch_alpha_vantage_history "AAPL" "1y" true [] ⟨2026, 10, 12, 15, 0⟩
          ⟨2026, 10, 12, 10, 0⟩ (.netFail "rate limit") ⟨0, 0, 0, 0, 0, 0⟩
          (fun _ => ⟨0, 0, 0, 0, 0⟩)).cache
        ⟨2026, 10, 12, 15, 1⟩ ⟨2026, 10, 12, 10, 1⟩ (.netFail "rate limit")
        ⟨0, 0, 0, 0, 0, 0⟩ (fun _ => ⟨0, 0, 0, 0, 0⟩)).networkCalled = true :=
  ⟨rfl, rfl⟩

/-- C4 amended: the cache is consulted (after the key check) before any
network call — a fresh entry short-circuits the provider call and returns
the identical cached payload; a successful non-mock network fetch stores its
result under (symbol, period) at the fetch time; hence an identical request
within 1 hour of a previous *successful provider* fetch returns the same
payload with no provider call, and at or past 1 hour a fresh provider call
is made.  (A mock-path response is never cached — see the counterexample.) -/
theorem C4_cache_behavior (symbol period : String) :
    (∀ cache now nowEst resp sRand rand cachedv ct,
      cacheLookup cache (symbol ++ "_" ++ period) = some (cachedv, ct) →
      minutesBetween ct now < 60 →
      fetch_alpha_vantage_history symbol period true cache now nowEst resp sRand rand =
        { result := .ok cachedv, cache := cache, networkCalled := false }) ∧
    (∀ cache now nowEst resp sRand rand h,
      (fetch_alpha_vantage_history symbol period true cache now nowEst resp sRand
        rand).result = .ok h →
      (fetch_alpha_vantage_history symbol period true cache now nowEst resp sRand
        rand).networkCalled = true →
      h.is_mock_data = false →
      cacheLookup (fetch_alpha_vantage_history symbol period true cache now nowEst resp
        sRand rand).cache (symbol ++ "_" ++ period) = some (h, now)) ∧
    (∀ cache now nowEst resp sRand rand h t1 t1e resp2 sRand2 rand2,
      (fetch_alpha_vantage_history symbol period true cache now nowEst resp sRand
        rand).result = .ok h →
      (fetch_alpha_vantage_history symbol period true cache now nowEst resp sRand
        rand).networkCalled = true →
      h.is_mock_data = false →
      (minutesBetween now t1 < 60 →
        fetch_alpha_vantage_history symbol period true
          (fetch_alpha_vantage_history symbol period true cache now nowEst resp sRand
            rand).cache t1 t1e resp2 sRand2 rand2 =
          { result := .ok h
            cache := (fetch_alpha_vantage_history symbol period true cache now nowEst
              resp sRand rand).cache
            networkCalled := false }) ∧
      (60 ≤ minutesBetween now t1 →
        (fetch_alpha_vantage_history symbol period true
          (fetch_alpha_vantage_history symbol period true cache now nowEst resp sRand
            rand).cache t1 t1e resp2 sRand2 rand2).networkCalled = true)) := by
  have hfresh : ∀ cache now nowEst resp sRand rand cachedv ct,
      cacheLookup cache (symbol ++ "_" ++ period) = some (cachedv, ct) →
      minutesBetween ct now < 60 →
      fetch_alpha_vantage_history symbol period true cache now nowEst resp sRand rand =
        { result := .ok cachedv, cache := cache, networkCalled := false } := by
    intro cache now nowEst resp sRand rand cachedv ct hhit hlt
    unfold fetch_alpha_vantage_history
    simp only [Bool.not_true, Bool.false_eq_true, if_false, hhit]
    rw [if_pos hlt]
  have hstores : ∀ cache now nowEst resp sRand rand h,
      (fetch_alpha_vantage_history symbol period true cache now nowEst resp sRand
        rand).result = .ok h →
      (fetch_alpha_vantage_history symbol period true cache now nowEst resp sRand
        rand).networkCalled = true →
      h.is_mock_data = false →
      cacheLookup (fetch_alpha_vantage_history symbol period true cache now nowEst resp
        sRand rand).cache (symbol ++ "_" ++ period) = some (h, now) := by
    intro cache now nowEst resp sRand rand h hok hnet hnm
    unfold fetch_alpha_vantage_history at hok hnet ⊢
    simp only [Bool.not_true, Bool.false_eq_true, if_false] at hok hnet ⊢
    match hhit : cacheLookup cache (symbol ++ "_" ++ period) with
    | some (cachedv, ct) =>
      rw [hhit] at hok hnet
      simp only [] at hok hnet
      by_cases hlt : minutesBetween ct now < 60
      · rw [if_pos hlt] at hnet
        simp at hnet
      · rw [if_neg hlt] at hok
        simp only []
        rw [if_neg hlt]
        exact historyNetwork_caches _ _ _ _ _ _ _ _ _ h hok hnm
    | none =>
      rw [hhit] at hok
      simp only [] at hok
      simp only []
      exact historyNetwork_caches _ _ _ _ _ _ _ _ _ h hok hnm
  refine ⟨hfresh, hstores, ?_⟩
  intro cache now nowEst resp sRand rand h t1 t1e resp2 sRand2 rand2 hok hnet hnm
  have hcached := hstores cache now nowEst resp sRand rand h hok hnet hnm
  constructor
  · intro hlt
    exact hfresh _ t1 t1e resp2 sRand2 rand2 h now hcached hlt
  · intro hge
    exact fetch_hist_stale_network _ _ _ _ _ _ _ _ _ _ hcached hge

/-- Witness for C4: a successful 1w fetch at 15:00 is cached; the identical
request at 15:30 returns the cached payload with no provider call; at 16:00
a fresh provider call is made. -/
theorem C4_cache_behavior_witness :
    fetch_alpha_vantage_history "AAPL" "1w" true
        (fetch_alpha_vantage_history "AAPL" "1w" true [] ⟨2026, 10, 12, 15, 0⟩
          ⟨2026, 10, 12, 10, 0⟩ (.payload [⟨"2026-10-08", 1, 2, 1, 2, 5⟩])
          ⟨0, 0, 0, 0, 0, 0⟩ (fun _ => ⟨0, 0, 0, 0, 0⟩)).cache
        ⟨2026, 10, 12, 15, 30⟩ ⟨2026, 10, 12, 10, 30⟩ .invalid
        ⟨0, 0, 0, 0, 0, 0⟩ (fun _ => ⟨0, 0, 0, 0, 0⟩) =
      { result := .ok ⟨[⟨"2026-10-08", 1, 2, 1, 2, 5⟩], 2, 1, false⟩
        cache := (fetch_alpha_vantage_history "AAPL" "1w" true [] ⟨2026, 10, 12, 15, 0⟩
          ⟨2026, 10, 12, 10, 0⟩ (.payload [⟨"2026-10-08", 1, 2, 1, 2, 5⟩])
          ⟨0, 0, 0, 0, 0, 0⟩ (fun _ => ⟨0, 0, 0, 0, 0⟩)).cache
        networkCalled := false } ∧
    (fetch_alpha_vantage_history "AAPL" "1w" true
        (fetch_alpha_vantage_history "AAPL" "1w" true [] ⟨2026, 10, 12, 15, 0⟩
          ⟨2026, 10, 12, 10, 0⟩ (.payload [⟨"2026-10-08", 1, 2, 1, 2, 5⟩])
          ⟨0, 0, 0, 0, 0, 0⟩ (fun _ => ⟨0, 0, 0, 0, 0⟩)).cache
        ⟨2026, 10, 12, 16, 0⟩ ⟨2026, 10, 12, 11, 0⟩ .invalid
        ⟨0, 0, 0, 0, 0, 0⟩ (fun _ => ⟨0, 0, 0, 0, 0⟩)).networkCalled = true := by
  have h := C4_cache_behavior "AAPL" "1w"
  have hok : (fetch_alpha_vantage_history "AAPL" "1w" true [] ⟨2026, 10, 12, 15, 0⟩
      ⟨2026, 10, 12, 10, 0⟩ (.payload [⟨"2026-10-08", 1, 2, 1, 2, 5⟩])
      ⟨0, 0, 0, 0, 0, 0⟩ (fun _ => ⟨0, 0, 0, 0, 0⟩)).result =
      .ok ⟨[⟨"2026-10-08", 1, 2, 1, 2, 5⟩], 2, 1, false⟩ := rfl
  have hscen := h.2.2 [] ⟨2026, 10, 12, 15, 0⟩ ⟨2026, 10, 12, 10, 0⟩
    (.payload [⟨"2026-10-08", 1, 2, 1, 2, 5⟩]) ⟨0, 0, 0, 0, 0, 0⟩
    (fun _ => ⟨0, 0, 0, 0, 0⟩) ⟨[⟨"2026-10-08", 1, 2, 1, 2, 5⟩], 2, 1, false⟩
    ⟨2026, 10, 12, 15, 30⟩ ⟨2026, 10, 12, 10, 30⟩ .invalid ⟨0, 0, 0, 0, 0, 0⟩
    (fun _ => ⟨0, 0, 0, 0, 0⟩) hok rfl rfl
  have hscen2 := h.2.2 [] ⟨2026, 10, 12, 15, 0⟩ ⟨2026, 10, 12, 10, 0⟩
    (.payload [⟨"2026-10-08", 1, 2, 1, 2, 5⟩]) ⟨0, 0, 0, 0, 0, 0⟩
    (fun _ => ⟨0, 0, 0, 0, 0⟩) ⟨[⟨"2026-10-08", 1, 2, 1, 2, 5⟩], 2, 1, false⟩
    ⟨2026, 10, 12, 16, 0⟩ ⟨2026, 10, 12, 11, 0⟩ .invalid ⟨0, 0, 0, 0, 0, 0⟩
    (fun _ => ⟨0, 0, 0, 0, 0⟩) hok rfl rfl
  exact ⟨hscen.1 (by decide), hscen2.2 (by decide)⟩

theorem periodHigh_spec (l : List HistoryPoint) :
    (∀ p ∈ l, p.high ≤ pyMax (l.map (·.high))) ∧
    (l ≠ [] → ∃ p ∈ l, pyMax (l.map (·.high)) = p.high) := by
  constructor
  · intro p hp
    exact le_pyMax (List.mem_map_of_mem _ hp)
  · intro hne
    have hm : pyMax (l.map (·.high)) ∈ l.map (·.high) :=
      pyMax_mem (by simpa using hne)
    obtain ⟨p, hp, he⟩ := List.mem_map.mp hm
    exact ⟨p, hp, he.symm⟩

theorem periodLow_spec (l : List HistoryPoint) :
    (∀ p ∈ l, pyMin (l.map (·.low)) ≤ p.low) ∧
    (l ≠ [] → ∃ p ∈ l, pyMin (l.map (·.low)) = p.low) := by
  constructor
  · intro p hp
    exact pyMin_le (List.mem_map_of_mem _ hp)
  · intro hne
    have hm : pyMin (l.map (·.low)) ∈ l.map (·.low) :=
      pyMin_mem (by simpa using hne)
    obtain ⟨p, hp, he⟩ := List.mem_map.mp hm
    exact ⟨p, hp, he.symm⟩

theorem finishHistory_good (cache : ChartCache) (now : DT) (cache_key : String)
    (filtered : List HistoryPoint) (hs : SortedByDate filtered) :
    ∀ h, (finishHistory cache now cache_key filtered).result = .ok h → GoodSeries h := by
  intro h hok
  unfold finishHistory at hok
  simp only [] at hok
  injection hok with e
  subst e
  by_cases hemp : filtered.isEmpty
  · have hnil : filtered = [] := List.isEmpty_iff.mp hemp
    refine ⟨hs, fun _ => by simp [hemp], ?_, ?_, ?_, ?_⟩
    · intro p hp
      rw [hnil] at hp
      simp at hp
    · intro hne
      exact absurd hnil hne
    · intro p hp
      rw [hnil] at hp
      simp at hp
    · intro hne
      exact absurd hnil hne
  · have hne : filtered ≠ [] := fun hc => hemp (by simp [hc])
    refine ⟨hs, fun hc => absurd hc hne, ?_, ?_, ?_, ?_⟩
    · intro p hp
      simpa [hemp] using (periodHigh_spec filtered).1 p hp
    · intro _
      simpa [hemp] using (periodHigh_spec filtered).2 hne
    · intro p hp
      simpa [hemp] using (periodLow_spec filtered).1 p hp
    · intro _
      simpa [hemp] using (periodLow_spec filtered).2 hne

/-- The sort key used by both history branches is a total transitive order,
so the sorted (and then filtered) chart data is sorted by date string. -/
theorem sorted_filter_chart (chart : List HistoryPoint) (pred : HistoryPoint → Bool) :
    SortedByDate ((pySort (fun a b => strLeB a.date b.date) chart).filter pred) := by
  have hsorted : (pySort (fun a b => strLeB a.date b.date) chart).Pairwise
      (fun a b => strLeB a.date b.date = true) :=
    pairwise_pySort (fun a b => strLeB_total a.date b.date)
      (fun a b c h1 h2 => strLeB_trans (s := a.date) (t := b.date) (u := c.date) h1 h2)
      chart
  exact List.Pairwise.filter pred hsorted

theorem mem_cacheInsert {c : ChartCache} {k : String} {v : HistoryResult × DT}
    {e : String × HistoryResult × DT} (he : e ∈ cacheInsert c k v) :
    e = (k, v) ∨ e ∈ c := by
  induction c with
  | nil => simpa [cacheInsert] using he
  | cons kv rest ih =>
    obtain ⟨k', v'⟩ := kv
    unfold cacheInsert at he
    by_cases hk : k' = k
    · rw [if_pos hk] at he
      rcases List.mem_cons.mp he with rfl | h2
      · exact Or.inl rfl
      · exact Or.inr (List.mem_cons_of_mem _ h2)
    · rw [if_neg hk] at he
      rcases List.mem_cons.mp he with rfl | h2
      · exact Or.inr (List.mem_cons_self _ _)
      · rcases ih h2 with h3 | h3
        · exact Or.inl h3
        · exact Or.inr (List.mem_cons_of_mem _ h3)

theorem cacheLookup_mem {c : ChartCache} {k : String} {v : HistoryResult × DT}
    (h : cacheLookup c k = some v) : (k, v) ∈ c := by
  induction c with
  | nil => simp [cacheLookup] at h
  | cons kv rest ih =>
    obtain ⟨k', v'⟩ := kv
    unfold cacheLookup at h
    by_cases hk : k' = k
    · rw [if_pos hk] at h
      injection h with h
      subst h
      subst hk
      exact List.mem_cons_self _ _
    · rw [if_neg hk] at h
      exact List.mem_cons_of_mem _ (ih h)

/-! ## Mock-series goodness -/

theorem mockWalk_dates (period : String) (rand : ℕ → StepRand) :
    ∀ (i : ℕ) (price : ℚ) (ds : List DT),
      (mockWalk period rand i price ds).map (·.date) = ds.map (mockDateLabel period) := by
  intro i price ds
  induction ds generalizing i price with
  | nil => rfl
  | cons d ds' ih =>
    unfold mockWalk
    simp only [List.map_cons]
    rw [ih]

theorem dateKey_le_of_dtKey_le {a b : DT} (hwa : DTWF a) (hwb : DTWF b)
    (h : dtKey a ≤ dtKey b) : dateKey a ≤ dateKey b := by
  rw [dtKey_eq, dtKey_eq] at h
  have ha5 : a.hour < 24 := hwa.2.2.2.2.1
  have ha6 : a.minute < 60 := hwa.2.2.2.2.2
  have hb5 : b.hour < 24 := hwb.2.2.2.2.1
  have hb6 : b.minute < 60 := hwb.2.2.2.2.2
  omega

theorem mockDateLabel_mono (period : String) {a b : DT} (hwa : DTWF a) (hwb : DTWF b)
    (hya : a.year < 10000) (hyb : b.year < 10000) (h : dtKey a ≤ dtKey b) :
    strLeB (mockDateLabel period a) (mockDateLabel period b) = true := by
  unfold mockDateLabel
  split
  · exact strLeB_fmtDateTime hwa hwb hya hyb h
  · exact strLeB_fmtDate hwa hwb hya hyb (dateKey_le_of_dtKey_le hwa hwb h)

theorem DTWF_withTime {t : DT} (h : DTWF t) {hh mi : ℕ} (hhh : hh < 24) (hmi : mi < 60) :
    DTWF (withTime t hh mi) := by
  obtain ⟨h1, h2, h3, h4, _, _⟩ := h
  exact ⟨h1, h2, h3, h4, hhh, hmi⟩

theorem intervalsWhile_succ (f : ℕ) (cur bound : DT) :
    intervalsWhile (f + 1) cur bound =
      if dtLeB cur bound then cur :: intervalsWhile f (addMinutes 30 cur) bound else [] := rfl

theorem intervalsWhile_props :
    ∀ (fuel : ℕ) (cur bound : DT), DTWF cur →
      (∀ d ∈ intervalsWhile fuel cur bound,
        DTWF d ∧ dtKey cur ≤ dtKey d ∧ dtKey d ≤ dtKey bound) ∧
      (intervalsWhile fuel cur bound).Pairwise (fun a b => dtKey a < dtKey b) := by
  intro fuel
  induction fuel with
  | zero =>
    intro cur bound hwf
    constructor
    · intro d hd
      simp [intervalsWhile] at hd
    · simp [intervalsWhile]
  | succ f ih =>
    intro cur bound hwf
    rw [intervalsWhile_succ]
    by_cases hg : dtLeB cur bound = true
    · rw [if_pos hg]
      have hwf30 : DTWF (addMinutes 30 cur) := DTWF_addMinutes hwf 30
      have hih := ih (addMinutes 30 cur) bound hwf30
      have hlt30 : dtKey cur < dtKey (addMinutes 30 cur) := by
        have h0 := dtKey_lt_addMinutes (t := cur) hwf (a := 0) (b := 30) (by norm_num)
        have hz : addMinutes 0 cur = cur := rfl
        rw [hz] at h0
        exact h0
      constructor
      · intro d hd
        rcases List.mem_cons.mp hd with rfl | hd'
        · refine ⟨hwf, le_refl _, ?_⟩
          simpa [dtLeB] using hg
        · obtain ⟨hdw, hge, hle⟩ := hih.1 d hd'
          exact ⟨hdw, le_trans (le_of_lt hlt30) hge, hle⟩
      · refine List.Pairwise.cons ?_ hih.2
        intro d hd
        obtain ⟨_, hge, _⟩ := hih.1 d hd
        exact lt_of_lt_of_le hlt30 hge
    · rw [if_neg hg]
      constructor
      · intro d hd
        simp at hd
      · simp

/-- Shape facts about the mock interval list: every interval is well-formed
with year below 10000, the list is strictly increasing, and it is
nonempty. -/
theorem mockIntervals_good (period : String) (now : DT)
    (hper : period ∈ ["1d", "1w", "3m", "1y"])
    (hwf : DTWF now) (hy1 : 1 ≤ now.year) (hy : now.year ≤ 9000) :
    (∀ d ∈ mockIntervals period now, DTWF d ∧ d.year < 10000) ∧
    (mockIntervals period now).Pairwise (fun a b => dtKey a < dtKey b) ∧
    mockIntervals period now ≠ [] := by
  have hrange : ∀ (m : ℕ) (start : DT), DTWF start → m ≤ 364 → start.year ≤ now.year →
      DTWF (addDays m start) ∧ (addDays m start).year < 10000 := by
    intro m start hws hm hsy
    refine ⟨DTWF_addDays hws m, ?_⟩
    have := addDays_year_le start m
    omega
  have hmapPairwise : ∀ (k n : ℕ) (start : DT), DTWF start → 1 ≤ k →
      ((List.range n).map (fun i => addDays (i * k) start)).Pairwise
        (fun a b => dtKey a < dtKey b) := by
    intro k n start hws hk
    rw [List.pairwise_map]
    refine List.Pairwise.imp_of_mem ?_ (List.pairwise_lt_range n)
    intro a b _ _ hab
    exact dtKey_lt_addDays hws ((Nat.mul_lt_mul_right (by omega)).mpr hab)
  rcases List.mem_cons.mp hper with h1d | hrest
  · -- period = "1d"
    subst h1d
    have hsub : DTWF (subDays 1 now) := DTWF_subDays hwf 1
    have hstart : DTWF (withTime (subDays 1 now) 9 30) :=
      DTWF_withTime hsub (by norm_num) (by norm_num)
    have hbound : DTWF (withTime now 16 0) :=
      DTWF_withTime hwf (by norm_num) (by norm_num)
    have hprops := intervalsWhile_props mockIntervalFuel
      (withTime (subDays 1 now) 9 30) (withTime now 16 0) hstart
    have hmock1d : mockIntervals "1d" now =
        intervalsWhile mockIntervalFuel (withTime (subDays 1 now) 9 30)
          (withTime now 16 0) := by
      unfold mockIntervals
      rw [if_pos rfl]
    refine ⟨?_, ?_, ?_⟩
    · intro d hd
      rw [hmock1d] at hd
      obtain ⟨hdw, _, hle⟩ := hprops.1 d hd
      refine ⟨hdw, ?_⟩
      have := year_le_of_dtKey_le hdw hbound hle
      have : d.year ≤ now.year := by simpa [withTime] using this
      omega
    · rw [hmock1d]
      exact hprops.2
    · rw [hmock1d]
      have hdk : dateKey (subDays 1 now) < dateKey now := by
        have h1 : subDays 1 now = subDay now := by
          unfold subDays
          simp
        rw [h1]
        exact dateKey_subDay_lt hwf hy1
      have hguard : dtLeB (withTime (subDays 1 now) 9 30) (withTime now 16 0) = true := by
        simp only [dtLeB, decide_eq_true_eq]
        rw [dtKey_eq, dtKey_eq]
        have he1 : dateKey (withTime (subDays 1 now) 9 30) = dateKey (subDays 1 now) := rfl
        have he2 : dateKey (withTime now 16 0) = dateKey now := rfl
        rw [he1, he2]
        simp only [withTime]
        omega
      have : mockIntervalFuel = 99999 + 1 := rfl
      rw [this, intervalsWhile_succ, if_pos hguard]
      simp
  rcases List.mem_cons.mp hrest with h1w | hrest2
  · -- period = "1w"
    subst h1w
    have hsub : DTWF (subDays 7 now) := DTWF_subDays hwf 7
    have hsy : (subDays 7 now).year ≤ now.year := subDays_year_le now 7
    have hmock : mockIntervals "1w" now =
        (List.range 8).map (fun i => addDays i (subDays 7 now)) := by
      unfold mockIntervals
      rw [if_neg (by decide), if_pos rfl]
    have heq : (List.range 8).map (fun i => addDays i (subDays 7 now)) =
        (List.range 8).map (fun i => addDays (i * 1) (subDays 7 now)) := by
      apply List.map_congr_left
      intro i _
      rw [Nat.mul_one]
    refine ⟨?_, ?_, ?_⟩
    · intro d hd
      rw [hmock] at hd
      obtain ⟨i, hi, he⟩ := List.mem_map.mp hd
      rw [← he]
      exact hrange i _ hsub (by simp at hi; omega) hsy
    · rw [hmock, heq]
      exact hmapPairwise 1 8 _ hsub (by norm_num)
    · rw [hmock]
      simp
  rcases List.mem_cons.mp hrest2 with h3m | hrest3
  · -- period = "3m"
    subst h3m
    have hsub : DTWF (subDays 90 now) := DTWF_subDays hwf 90
    have hsy : (subDays 90 now).year ≤ now.year := subDays_year_le now 90
    have hmock : mockIntervals "3m" now =
        (List.range 31).map (fun i => addDays (i * 3) (subDays 90 now)) := by
      unfold mockIntervals
      rw [if_neg (by decide), if_neg (by decide), if_pos rfl]
    refine ⟨?_, ?_, ?_⟩
    · intro d hd
      rw [hmock] at hd
      obtain ⟨i, hi, he⟩ := List.mem_map.mp hd
      rw [← he]
      exact hrange (i * 3) _ hsub (by simp at hi; omega) hsy
    · rw [hmock]
      exact hmapPairwise 3 31 _ hsub (by norm_num)
    · rw [hmock]
      simp
  · -- period = "1y"
    have h1y : period = "1y" := by simpa using hrest3
    subst h1y
    have hsub : DTWF (subDays 365 now) := DTWF_subDays hwf 365
    have hsy : (subDays 365 now).year ≤ now.year := subDays_year_le now 365
    have hmock : mockIntervals "1y" now =
        (List.range 53).map (fun i => addDays (i * 7) (subDays 365 now)) := by
      unfold mockIntervals
      rw [if_neg (by decide), if_neg (by decide), if_neg (by decide)]
    refine ⟨?_, ?_, ?_⟩
    · intro d hd
      rw [hmock] at hd
      obtain ⟨i, hi, he⟩ := List.mem_map.mp hd
      rw [← he]
      exact hrange (i * 7) _ hsub (by simp at hi; omega) hsy
    · rw [hmock]
      exact hmapPairwise 7 53 _ hsub (by norm_num)
    · rw [hmock]
      simp

theorem generate_mock_good (symbol period : String) (now : DT) (sRand : StockRand)
    (rand : ℕ → StepRand) (hper : period ∈ ["1d", "1w", "3m", "1y"])
    (hwf : DTWF now) (hy1 : 1 ≤ now.year) (hy : now.year ≤ 9000) :
    GoodSeries (generate_mock_historical_data symbol period now sRand rand) := by
  obtain ⟨hmem, hpw, hne⟩ := mockIntervals_good period now hper hwf hy1 hy
  unfold generate_mock_historical_data
  simp only []
  set data := mockWalk period rand 0
    ((get_mock_stock_data symbol sRand).current_price * (95 / 100))
    (mockIntervals period now) with hdata
  have hdates : data.map (·.date) = (mockIntervals period now).map (mockDateLabel period) :=
    mockWalk_dates period rand 0 _ _
  have hlen : data.length = (mockIntervals period now).length :=
    mockWalk_length period rand 0 _ _
  have hsorted : SortedByDate data := by
    unfold SortedByDate
    have hmapped : (data.map (·.date)).Pairwise (fun a b => strLeB a b = true) := by
      rw [hdates, List.pairwise_map]
      refine List.Pairwise.imp_of_mem ?_ hpw
      intro a b ha hb hlt
      obtain ⟨hwa, hya⟩ := hmem a ha
      obtain ⟨hwb, hyb⟩ := hmem b hb
      exact mockDateLabel_mono period hwa hwb hya hyb (le_of_lt hlt)
    rw [List.pairwise_map] at hmapped
    exact hmapped
  have hdne : data ≠ [] := by
    intro hc
    rw [hc] at hlen
    exact hne (List.length_eq_zero.mp hlen.symm)
  exact ⟨hsorted, fun hc => absurd hc hdne,
    (periodHigh_spec data).1, fun _ => (periodHigh_spec data).2 hdne,
    (periodLow_spec data).1, fun _ => (periodLow_spec data).2 hdne⟩

theorem historyExceptHandler_cache (symbol period : String) (now : DT)
    (cache : ChartCache) (sRand : StockRand) (rand : ℕ → StepRand) (msg : String) :
    (historyExceptHandler symbol period now cache sRand rand msg).cache = cache := by
  unfold historyExceptHandler
  split <;> rfl

theorem historyExceptHandler_good (symbol period : String) (now : DT)
    (cache : ChartCache) (sRand : StockRand) (rand : ℕ → StepRand) (msg : String)
    (hper : period ∈ ["1d", "1w", "3m", "1y"])
    (hwf : DTWF now) (hy1 : 1 ≤ now.year) (hy : now.year ≤ 9000) :
    ∀ res, (historyExceptHandler symbol period now cache sRand rand msg).result =
      .ok res → GoodSeries res := by
  intro res hok
  have := historyExceptHandler_ok_mock _ _ _ _ _ _ _ _ hok
  rw [this]
  exact generate_mock_good symbol period now sRand rand hper hwf hy1 hy

theorem historyNetwork_good (symbol period : String) (cache : ChartCache)
    (now nowEst : DT) (resp : AVResp (List RawBar)) (sRand : StockRand)
    (rand : ℕ → StepRand) (cache_key : String)
    (hper : period ∈ ["1d", "1w", "3m", "1y"])
    (hwf : DTWF now) (hy1 : 1 ≤ now.year) (hy : now.year ≤ 9000)
    (hcache : ∀ e ∈ cache, GoodSeries e.2.1) :
    (∀ res, (historyNetwork symbol period cache now nowEst resp sRand rand
      cache_key).result = .ok res → GoodSeries res) ∧
    (∀ e ∈ (historyNetwork symbol period cache now nowEst resp sRand rand
      cache_key).cache, GoodSeries e.2.1) := by
  have hhandler : ∀ msg,
      (∀ res, (historyExceptHandler symbol period now cache sRand rand msg).result =
        .ok res → GoodSeries res) ∧
      (∀ e ∈ (historyExceptHandler symbol period now cache sRand rand msg).cache,
        GoodSeries e.2.1) := by
    intro msg
    refine ⟨historyExceptHandler_good symbol period now cache sRand rand msg hper hwf
      hy1 hy, ?_⟩
    rw [historyExceptHandler_cache]
    exact hcache
  have hfin : ∀ filtered : List HistoryPoint, SortedByDate filtered →
      (∀ res, (finishHistory cache now cache_key filtered).result = .ok res →
        GoodSeries res) ∧
      (∀ e ∈ (finishHistory cache now cache_key filtered).cache, GoodSeries e.2.1) := by
    intro filtered hs
    refine ⟨finishHistory_good cache now cache_key filtered hs, ?_⟩
    intro e he
    unfold finishHistory at he
    simp only [] at he
    rcases mem_cacheInsert he with rfl | h2
    · exact finishHistory_good cache now cache_key filtered hs _ rfl
    · exact hcache e h2
  unfold historyNetwork
  cases resp with
  | payload bars =>
    simp only []
    split
    · split
      · exact hhandler _
      · exact hfin _ (sorted_filter_chart _ _)
    · split
      · exact hhandler _
      · exact hfin _ (sorted_filter_chart _ _)
  | errorMessage s => exact hhandler _
  | note => exact hhandler _
  | information => exact hhandler _
  | invalid => exact hhandler _
  | netFail m => exact hhandler _

/-- C3: every `HistorySeries` response — from the real fetch (freshly built,
served from cache, or the rate-limited mock substitute) and from the mock
generator — has `period_high` equal to the maximum of the `high` fields and
`period_low` equal to the minimum of the `low` fields over the returned data
array, the array sorted ascending by its date string, and `period_high` =
`period_low` = 0 (not an error) when the filtered data set is empty. -/
theorem C3_history_series_shape (symbol period : String) (keyPresent : Bool)
    (cache : ChartCache) (now nowEst : DT) (resp : AVResp (List RawBar))
    (sRand : StockRand) (rand : ℕ → StepRand)
    (hper : period ∈ ["1d", "1w", "3m", "1y"])
    (hwf : DTWF now) (hy1 : 1 ≤ now.year) (hy : now.year ≤ 9000)
    (hcache : ∀ e ∈ cache, GoodSeries e.2.1) :
    (∀ res, (fetch_alpha_vantage_history symbol period keyPresent cache now nowEst resp
      sRand rand).result = .ok res → GoodSeries res) ∧
    (∀ e ∈ (fetch_alpha_vantage_history symbol period keyPresent cache now nowEst resp
      sRand rand).cache, GoodSeries e.2.1) ∧
    GoodSeries (generate_mock_historical_data symbol period now sRand rand) := by
  have hmg := generate_mock_good symbol period now sRand rand hper hwf hy1 hy
  have hnet := historyNetwork_good symbol period cache now nowEst resp sRand rand
    (symbol ++ "_" ++ period) hper hwf hy1 hy hcache
  unfold fetch_alpha_vantage_history
  by_cases hk : keyPresent
  · simp only [hk, Bool.not_true, Bool.false_eq_true, if_false]
    match hhit : cacheLookup cache (symbol ++ "_" ++ period) with
    | some (cachedv, ct) =>
      simp only []
      by_cases hlt : minutesBetween ct now < 60
      · rw [if_pos hlt]
        refine ⟨?_, ?_, hmg⟩
        · intro res hok
          simp only [] at hok
          injection hok with e
          subst e
          exact (hcache _ (cacheLookup_mem hhit))
        · intro e he
          exact hcache e he
      · rw [if_neg hlt]
        exact ⟨hnet.1, hnet.2, hmg⟩
    | none =>
      simp only []
      exact ⟨hnet.1, hnet.2, hmg⟩
  · have hk' : keyPresent = false := by simpa using hk
    subst hk'
    simp only [Bool.not_false, if_pos rfl]
    refine ⟨?_, ?_, hmg⟩
    · intro res hok
      simp at hok
    · intro e he
      exact hcache e he

/-- Witness for C3: the rate-limited 1y mock response and a real 1w response
built from one provider bar. -/
theorem C3_history_series_shape_witness :
    GoodSeries (generate_mock_historical_data "AAPL" "1y" ⟨2026, 10, 12, 15, 0⟩
      ⟨0, 0, 0, 0, 0, 0⟩ (fun _ => ⟨0, 0, 0, 0, 0⟩)) ∧
    GoodSeries ⟨[⟨"2026-10-08", 1, 2, 1, 2, 5⟩], 2, 1, false⟩ := by
  constructor
  · exact (C3_history_series_shape "AAPL" "1y" true [] ⟨2026, 10, 12, 15, 0⟩
      ⟨2026, 10, 12, 10, 0⟩ (.netFail "rate limit") ⟨0, 0, 0, 0, 0, 0⟩
      (fun _ => ⟨0, 0, 0, 0, 0⟩) (by decide) (by decide) (by decide) (by decide)
      (by simp)).1 _ rfl
  · exact (C3_history_series_shape "AAPL" "1w" true [] ⟨2026, 10, 12, 15, 0⟩
      ⟨2026, 10, 12, 10, 0⟩ (.payload [⟨"2026-10-08", 1, 2, 1, 2, 5⟩])
      ⟨0, 0, 0, 0, 0, 0⟩ (fun _ => ⟨0, 0, 0, 0, 0⟩) (by decide) (by decide) (by decide)
      (by decide) (by simp)).1 _ rfl
